import Mathlib

/-!
# Snake game: the state machine of `main.go`

A shallow embedding of `Game.Update` and the functions it calls
(`placeFood`, `restart`, `checkSelfCollison`, `createExplosion`) together with
the initial state built in `main`.

Modelling conventions.

* Go `int` values (coordinates, score, particle life) are `Int`.  Coordinates
  are bounded by the board and the score by ten times the body length, so no
  value studied here comes near the machine limits.
* `time.Time` and `time.Duration` are integer nanosecond counts; the two clock
  readings of one `Update` call (`time.Since` on line 154, `time.Now` on line
  206) are inputs.
* `ebiten.IsKeyPressed` is the input function `pressed`; the two `rand.Intn`
  draws of `placeFood` are the inputs `cellX`, `cellY`.
* `float64` is a type parameter `F` with the operations the code applies to it
  collected in `Float64 F`; nothing is assumed about rounding.
* A `go f(...)` statement starts `f`: `Update` returns the list of the
  goroutines it started.  The `createExplosion` goroutine appends to
  `g.particles` with no lock while the call that started it goes on; how many
  of its appends land before the particle loop of that call reads the list
  (line 210) is the input `early`, and its random velocities and sizes are
  the input `draw`.  Appends that land after that read and before line 220
  are overwritten by line 220; those that land later still are transitions of
  their own.  Each append is taken as one step.
* The audio fields of `Game` are never written by `Update` and are left out.
* A run-time panic (indexing an empty `snakeBody`) is the result `none`.
-/

namespace Snake

/-- Board width, `screenWidth` (line 22). -/
def screenWidth : Int := 640

/-- Board height, `screenHeight` (line 23). -/
def screenHeight : Int := 480

/-- Cell size, `gridSize` (line 24). -/
def gridSize : Int := 20

/-- Heading of the snake (lines 27-34). -/
inductive Direction where
  | Right
  | Left
  | Up
  | Down
deriving DecidableEq, Repr

/-- The direct opposite of a heading. -/
def Direction.opposite : Direction → Direction
  | .Right => .Left
  | .Left => .Right
  | .Up => .Down
  | .Down => .Up

/-- Cell position (lines 36-39). -/
structure Position where
  X : Int
  Y : Int
deriving DecidableEq, Repr

/-- The `color.RGBA` value of a particle: four bytes. -/
structure RGBA where
  R : Nat
  G : Nat
  B : Nat
  A : Nat
deriving DecidableEq, Repr

/-- Particle (lines 41-47). -/
structure Particle (F : Type) where
  x : F
  y : F
  dx : F
  dy : F
  life : Int
  color : RGBA
  size : F
deriving DecidableEq, Repr

/-- Frames a particle lives, `particleLife` (line 50). -/
def particleLife : Int := 30

/-- Particles per explosion, `numParticles` (line 51). -/
def numParticles : Nat := 30

/-- The `float64` operations used by the game code. -/
structure Float64 (F : Type) where
  /-- Addition `a + b`. -/
  add : F → F → F
  /-- Multiplication `a * b`. -/
  mul : F → F → F
  /-- Division `a / b`. -/
  div : F → F → F
  /-- Conversion `float64(n)` of an `int`. -/
  ofInt : Int → F
  /-- Conversion `uint8(a)`. -/
  toUInt8 : F → Nat

/-- The game state (lines 54-69), without the audio fields. -/
structure Game (F : Type) where
  snakeBody : List Position
  direction : Direction
  lastMove : Int
  moveSpeed : Int
  grow : Bool
  foodPos : Position
  gameOver : Bool
  score : Int
  particles : List (Particle F)
deriving DecidableEq, Repr

/-- Keys read by `Update`. -/
inductive Key where
  | Space
  | Right
  | Left
  | Down
  | Up
deriving DecidableEq, Repr

/-- Everything one `Update` call reads from outside the game state. -/
structure Input (F : Type) where
  /-- The answer of `ebiten.IsKeyPressed` for each key. -/
  pressed : Key → Bool
  /-- Clock reading used by `time.Since(g.lastMove)` (line 154). -/
  now : Int
  /-- Clock reading returned by `time.Now()` (line 206). -/
  nowAfter : Int
  /-- The draw `rand.Intn(screenWidth / gridSize)` (line 73). -/
  cellX : Int
  /-- The draw `rand.Intn(screenHeight / gridSize)` (line 74). -/
  cellY : Int
  /-- Number of iterations of the `createExplosion` goroutine started by this
  call (line 191) that complete before its particle loop reads `g.particles`
  (line 210); it matters only on a call that eats food. -/
  early : Nat
  /-- Velocity `dx`, `dy` and `size` computed from the random draws of
  iteration `i` of that goroutine (lines 114-129). -/
  draw : Nat → F × F × F

/-- Goroutines started by a `go` statement of `Update`, with their arguments. -/
inductive Spawned (F : Type) where
  | playGameOverSound
  | createExplosion (x y : F)
  | playEatSound
deriving DecidableEq, Repr

variable {F : Type}

/-- Function `placeFood` (lines 71-82) with the two random draws as arguments. -/
def placeFood (g : Game F) (cellX cellY : Int) : Game F :=
  { g with foodPos := { X := cellX * gridSize, Y := cellY * gridSize } }

/-- Function `restart` (lines 85-97); the draws are those of its `placeFood`. -/
def restart (g : Game F) (cellX cellY : Int) : Game F :=
  placeFood
    { g with
      snakeBody :=
        [ { X := screenWidth / 2, Y := screenHeight / 2 },
          { X := screenWidth / 2 - gridSize, Y := screenHeight / 2 },
          { X := screenWidth / 2 - gridSize * 2, Y := screenHeight / 2 } ]
      particles := []
      direction := .Right
      score := 0
      gameOver := false }
    cellX cellY

/-- The loop of `checkSelfCollison` (lines 101-108) over the segments. -/
def checkSelfCollison.loop (pos : Position) : List Position → Bool
  | [] => false
  | bodyPart :: rest =>
    if pos.X = bodyPart.X ∧ pos.Y = bodyPart.Y then true
    else checkSelfCollison.loop pos rest

/-- Function `checkSelfCollison` (lines 100-109). -/
def checkSelfCollison (g : Game F) (pos : Position) : Bool :=
  checkSelfCollison.loop pos g.snakeBody

/-- One appended particle of `createExplosion` (lines 117-131); `dx`, `dy` and
`size` are the values computed from the random draws. -/
def newParticle (x y dx dy size : F) : Particle F :=
  { x := x, y := y, dx := dx, dy := dy, life := particleLife,
    color := { R := 255, G := 215, B := 0, A := 255 }, size := size }

/-- The iterations `iters` of the loop of `createExplosion` (lines 112-132),
each appending one particle; `draw i` gives the velocity and size computed
from the random draws of iteration `i`. -/
def createExplosion.loop (g : Game F) (x y : F) (draw : Nat → F × F × F)
    (iters : List Nat) : Game F :=
  iters.foldl
    (fun g i =>
      { g with
        particles :=
          g.particles ++ [newParticle x y (draw i).1 (draw i).2.1 (draw i).2.2] })
    g

/-- Function `createExplosion` (lines 111-133): iterations 0 to numParticles - 1. -/
def createExplosion (g : Game F) (x y : F) (draw : Nat → F × F × F) : Game F :=
  createExplosion.loop g x y draw (List.range numParticles)

/-- Key handling of `Update` (lines 144-152). -/
def applyKeys (pressed : Key → Bool) (d : Direction) : Direction :=
  if pressed .Right && d != .Left then .Right
  else if pressed .Left && d != .Right then .Left
  else if pressed .Down && d != .Up then .Down
  else if pressed .Up && d != .Down then .Up
  else d

/-- The `switch` of `Update` (lines 157-167): one cell along the heading. -/
def moveHead (head : Position) : Direction → Position
  | .Right => { X := head.X + gridSize, Y := head.Y }
  | .Left => { X := head.X - gridSize, Y := head.Y }
  | .Up => { X := head.X, Y := head.Y - gridSize }
  | .Down => { X := head.X, Y := head.Y + gridSize }

/-- Wrap-around logic of `Update` (lines 169-180). -/
def wrapHead (newHead : Position) : Position :=
  { X := if newHead.X < 0 then screenWidth - gridSize
         else if newHead.X > screenWidth then 0 else newHead.X,
    Y := if newHead.Y < 0 then screenHeight - gridSize
         else if newHead.Y > screenHeight then 0 else newHead.Y }

/-- The wrapped new head of a movement step (lines 155-180). -/
def nextHead (head : Position) (d : Direction) : Position :=
  wrapHead (moveHead head d)

/-- Body of the particle loop (lines 211-218) for one particle. -/
def stepParticle (ops : Float64 F) (p : Particle F) : Particle F :=
  { p with
    x := ops.add p.x p.dx
    y := ops.add p.y p.dy
    life := p.life - 1
    color :=
      { p.color with
        A := ops.toUInt8
          (ops.mul (ops.div (ops.ofInt (p.life - 1)) (ops.ofInt particleLife))
            (ops.ofInt 255)) } }

/-- Particle update of `Update` (lines 209-220): the loop appends the stepped
live particles to `activeParticles`. -/
def updateParticles (ops : Float64 F) (particles : List (Particle F)) :
    List (Particle F) :=
  particles.foldl
    (fun activeParticles p =>
      if p.life > 0 then activeParticles ++ [stepParticle ops p]
      else activeParticles)
    []

/-- Function `Update` (lines 135-223): the new state and the goroutines started, or
`none` when the call panics.  On a call that eats food the first `inp.early`
appends of the `createExplosion` goroutine started on line 191 are in
`g.particles` when the particle loop reads it. -/
def Update (ops : Float64 F) (g : Game F) (inp : Input F) :
    Option (Game F × List (Spawned F)) :=
  if g.gameOver then
    if inp.pressed .Space then some (restart g inp.cellX inp.cellY, [])
    else some (g, [])
  else
    let g := { g with direction := applyKeys inp.pressed g.direction }
    if inp.now - g.lastMove > g.moveSpeed then
      match g.snakeBody with
      | [] => none
      | head :: _ =>
        let newHead := nextHead head g.direction
        if checkSelfCollison g newHead then
          some ({ g with gameOver := true }, [.playGameOverSound])
        else
          let eaten : Game F × List (Spawned F) :=
            if newHead.X = g.foodPos.X ∧ newHead.Y = g.foodPos.Y then
              let g1 := placeFood { g with grow := true } inp.cellX inp.cellY
              let g1 := { g1 with score := g1.score + 10 }
              (createExplosion.loop g1 (ops.ofInt g.foodPos.X) (ops.ofInt g.foodPos.Y)
                  inp.draw ((List.range numParticles).take inp.early),
                [.createExplosion (ops.ofInt g.foodPos.X) (ops.ofInt g.foodPos.Y),
                  .playEatSound])
            else (g, [])
          let g := eaten.1
          let g :=
            if !g.grow then { g with snakeBody := g.snakeBody.dropLast }
            else { g with grow := false }
          let g := { g with snakeBody := newHead :: g.snakeBody }
          let g := { g with lastMove := inp.nowAfter }
          some ({ g with particles := updateParticles ops g.particles }, eaten.2)
    else
      some ({ g with particles := updateParticles ops g.particles }, [])

/-- The game built in `main` (lines 387-404): `now` is the clock reading of
line 394, `cellX`, `cellY` the draws of the first `placeFood`. -/
def mainGame (now cellX cellY : Int) : Game F :=
  placeFood
    { snakeBody := [ { X := 300, Y := 240 }, { X := 280, Y := 240 }, { X := 260, Y := 240 } ]
      direction := .Right
      lastMove := now
      moveSpeed := 100 * 1000000
      grow := false
      foodPos := { X := 0, Y := 0 }
      gameOver := false
      score := 0
      particles := [] }
    cellX cellY

/-- Successive `Update` calls, one per input; `none` if a call panics. -/
def runUpdates (ops : Float64 F) (g : Game F) : List (Input F) → Option (Game F)
  | [] => some g
  | inp :: rest =>
    match Update ops g inp with
    | none => none
    | some r => runUpdates ops r.1 rest

/-- The heading a call of `Update` moves the snake along, if the call reaches
the movement step (game not over and move interval exceeded). -/
def movementDirection (g : Game F) (inp : Input F) : Option Direction :=
  if g.gameOver then none
  else if inp.now - g.lastMove > g.moveSpeed then
    some (applyKeys inp.pressed g.direction)
  else none

/-- Headings of the movement steps of a run of `Update` calls, in order. -/
def movementTrace (ops : Float64 F) (g : Game F) : List (Input F) → List Direction
  | [] => []
  | inp :: rest =>
    let here := (movementDirection g inp).toList
    match Update ops g inp with
    | none => here
    | some r => here ++ movementTrace ops r.1 rest

/-- Exact-arithmetic reading of `float64`: rationals, with `uint8` taking the
integer part of a value in range. -/
def exactOps : Float64 Rat :=
  { add := fun a b => a + b
    mul := fun a b => a * b
    div := fun a b => a / b
    ofInt := fun n => (n : Rat)
    toUInt8 := fun a => (Rat.floor a).toNat % 256 }

/-- Input with no key pressed. -/
def noKeys : Key → Bool := fun _ => false

/-- Input with exactly the key `k` pressed. -/
def onlyKey (k : Key) : Key → Bool := fun k2 => decide (k2 = k)

/-- The particles appended by the first `inp.early` iterations of the
`createExplosion` goroutine a food step starts (line 191, lines 117-131). -/
def earlyParticles (ops : Float64 F) (g : Game F) (inp : Input F) : List (Particle F) :=
  ((List.range numParticles).take inp.early).map
    (fun i =>
      newParticle (ops.ofInt g.foodPos.X) (ops.ofInt g.foodPos.Y)
        (inp.draw i).1 (inp.draw i).2.1 (inp.draw i).2.2)

/-- The state after a movement step that hits no segment (lines 188-220). -/
def movedGame (ops : Float64 F) (g : Game F) (inp : Input F) (newHead : Position) : Game F :=
  if newHead = g.foodPos then
    { snakeBody := newHead :: g.snakeBody
      direction := applyKeys inp.pressed g.direction
      lastMove := inp.nowAfter
      moveSpeed := g.moveSpeed
      grow := false
      foodPos := { X := inp.cellX * gridSize, Y := inp.cellY * gridSize }
      gameOver := false
      score := g.score + 10
      particles := updateParticles ops (g.particles ++ earlyParticles ops g inp) }
  else
    { snakeBody := newHead :: (if g.grow then g.snakeBody else g.snakeBody.dropLast)
      direction := applyKeys inp.pressed g.direction
      lastMove := inp.nowAfter
      moveSpeed := g.moveSpeed
      grow := false
      foodPos := g.foodPos
      gameOver := false
      score := g.score
      particles := updateParticles ops g.particles }

/-- The goroutines started by a movement step that hits no segment. -/
def movedSpawned (ops : Float64 F) (g : Game F) (newHead : Position) : List (Spawned F) :=
  if newHead = g.foodPos then
    [.createExplosion (ops.ofInt g.foodPos.X) (ops.ofInt g.foodPos.Y), .playEatSound]
  else []

/-- The relation between a live particle before the particle update and the
same particle after it: life one less, position advanced by the velocity,
velocity and size kept. -/
def SteppedFrom (ops : Float64 F) (p q : Particle F) : Prop :=
  q.life = p.life - 1 ∧ q.x = ops.add p.x p.dx ∧ q.y = ops.add p.y p.dy ∧
    q.dx = p.dx ∧ q.dy = p.dy ∧ q.size = p.size

/-- The arrow key that asks for a heading. -/
def arrowKey : Direction → Key
  | .Right => .Right
  | .Left => .Left
  | .Up => .Up
  | .Down => .Down

/-! ## Concrete states and inputs used by the examples -/

/-- The game as `main` builds it at time 0, food on cell (5, 5). -/
def startGame : Game Rat := mainGame 0 5 5

/-- Velocity (1, 0) and size 2 for every particle of an explosion. -/
def steadyDraw : Nat → Rat × Rat × Rat := fun _ => (1, 0, 2)

/-- A call 200 ms after time 0 with no key pressed; food draws (3, 4); an
explosion started by the call appends nothing before the particle loop. -/
def tickInput : Input Rat :=
  { pressed := noKeys, now := 200000000, nowAfter := 200000000, cellX := 3, cellY := 4,
    early := 0, draw := steadyDraw }

/-- A call at time `t` (in ns) with only the key `k` pressed; food draws (3, 4). -/
def keyInput (k : Key) (t : Int) : Input Rat :=
  { pressed := onlyKey k, now := t, nowAfter := t, cellX := 3, cellY := 4,
    early := 0, draw := steadyDraw }

/-- The call `tickInput` when an explosion started by the call has appended
all its particles before the particle loop reads the list. -/
def raceInput : Input Rat := { tickInput with early := 30 }

/-- A call 250 ms after time 0 with no key pressed: 50 ms after a move made by
`tickInput`, so below the move interval. -/
def idleInput : Input Rat := { tickInput with now := 250000000 }

/-- The start game with the food on the cell right of the head. -/
def foodAheadGame : Game Rat := { startGame with foodPos := { X := 320, Y := 240 } }

/-- A snake coiled in a square, heading Up, its tail right of its head. -/
def coiledGame : Game Rat :=
  { startGame with
    snakeBody := [ { X := 0, Y := 0 }, { X := 0, Y := 20 }, { X := 20, Y := 20 },
      { X := 20, Y := 0 } ]
    direction := .Up }

/-- A game that is over, with one particle left. -/
def overGame : Game Rat :=
  { startGame with gameOver := true, score := 40, particles := [newParticle 1 2 3 4 5] }

/-- A snake whose head is on the column X = screenWidth, heading Right. -/
def edgeGame : Game Rat :=
  { startGame with
    snakeBody := [ { X := 640, Y := 240 }, { X := 620, Y := 240 }, { X := 600, Y := 240 } ] }

/-- The start game with three particles of life 30, 0 and 1. -/
def sparkGame : Game Rat :=
  { startGame with
    particles :=
      [ newParticle 1 2 (1 / 2) (1 / 3) 2,
        { newParticle 7 7 1 1 1 with life := 0 },
        { newParticle 5 5 1 1 1 with life := 1 } ] }

/-! ## Reachable states, grid cells, fade -/

/-- The values `rand.Intn` can return in `placeFood` (lines 73-74). -/
abbrev validDraws (cellX cellY : Int) : Prop :=
  0 ≤ cellX ∧ cellX < screenWidth / gridSize ∧ 0 ≤ cellY ∧ cellY < screenHeight / gridSize

/-- States the program can be in: the game built in `main`, then any number of
`Update` calls with any keys, clock readings and draws of `rand.Intn`, and of
appends of `createExplosion` goroutines (any iterations of the loop, any
random velocities and sizes) between them. -/
inductive Reachable (ops : Float64 F) : Game F → Prop where
  | main (now cellX cellY : Int) (hdraws : validDraws cellX cellY) :
      Reachable ops (mainGame now cellX cellY)
  | update (g : Game F) (inp : Input F) (g2 : Game F) (spawned : List (Spawned F))
      (hg : Reachable ops g) (hdraws : validDraws inp.cellX inp.cellY)
      (hcall : Update ops g inp = some (g2, spawned)) : Reachable ops g2
  | explosion (g : Game F) (x y : F) (draw : Nat → F × F × F) (iters : List Nat)
      (hg : Reachable ops g) : Reachable ops (createExplosion.loop g x y draw iters)

/-- A position whose coordinates are multiples of `gridSize` with
0 <= X <= screenWidth and 0 <= Y <= screenHeight. -/
def onGrid (p : Position) : Prop :=
  gridSize ∣ p.X ∧ gridSize ∣ p.Y ∧ 0 ≤ p.X ∧ p.X ≤ screenWidth ∧ 0 ≤ p.Y ∧ p.Y ≤ screenHeight

/-- What every reachable state satisfies: segments and food on the grid, grow
flag clear between calls, at least three segments, score ten per segment
beyond the third. -/
def Invariant (g : Game F) : Prop :=
  (∀ seg ∈ g.snakeBody, onGrid seg) ∧ onGrid g.foodPos ∧ g.grow = false ∧
    3 ≤ g.snakeBody.length ∧ g.score = 10 * ((g.snakeBody.length : Int) - 3)

/-- The head after `k` movement steps along the heading `d` (lines 155-180
repeated), when no step ends the game. -/
def headAfter (d : Direction) : Nat → Position → Position
  | 0, p => p
  | k + 1, p => nextHead (headAfter d k p) d

/-- The fade in exact arithmetic, as the specification words it:
alpha = floor(life * 255 / particleLife). -/
def exactAlpha (life : Int) : Int :=
  life * 255 / particleLife

/-- A call `i` ticks of 200 ms after time 0, no key pressed, food draws (3, 4). -/
def tickAt (i : Nat) : Input Rat :=
  { pressed := noKeys, now := 200000000 * ((i : Int) + 1),
    nowAfter := 200000000 * ((i : Int) + 1), cellX := 3, cellY := 4,
    early := 0, draw := steadyDraw }

/-- The first `n` calls of `tickAt`. -/
def ticks (n : Nat) : List (Input Rat) :=
  (List.range n).map tickAt

/-- A snake heading Right whose head has just wrapped to the column X = 0. -/
def leftEdgeGame : Game Rat :=
  { startGame with
    snakeBody := [ { X := 0, Y := 240 }, { X := 640, Y := 240 }, { X := 620, Y := 240 } ] }

/-- A snake heading Right whose head is on the last board column, X = 620. -/
def nearEdgeGame : Game Rat :=
  { startGame with
    snakeBody := [ { X := 620, Y := 240 }, { X := 600, Y := 240 }, { X := 580, Y := 240 } ] }

/-- The coiled snake with the food lying under its tail (20,0). -/
def underFoodGame : Game Rat :=
  { coiledGame with foodPos := { X := 20, Y := 0 } }

/-- The game `main` builds when the first food draws are (16, 12): the food is
on (320,240), the cell right of the head. -/
def firstFoodGame : Game Rat := mainGame 0 16 12

/-- The state after the first movement step of `firstFoodGame`, which eats the
food: four segments, score 10, new food on (60, 80). -/
def afterFirstFood : Game Rat :=
  movedGame exactOps firstFoodGame tickInput { X := 320, Y := 240 }

end Snake

namespace Snake

variable {F : Type}

/-! ## Shape of one `Update` call -/

/-- Two positions are equal when both coordinates are. -/
theorem Position.eq_iff (p q : Position) : p = q ↔ p.X = q.X ∧ p.Y = q.Y := by
  cases p; cases q; simp

/-- The collision loop returns `true` exactly on a position of the list. -/
theorem checkSelfCollison_loop_iff (pos : Position) (body : List Position) :
    checkSelfCollison.loop pos body = true ↔ pos ∈ body := by
  induction body with
  | nil => simp [checkSelfCollison.loop]
  | cons b rest ih =>
    by_cases hb : pos = b
    · have h2 := (Position.eq_iff pos b).1 hb
      simp [checkSelfCollison.loop, hb]
    · have h2 : ¬ (pos.X = b.X ∧ pos.Y = b.Y) := fun h => hb ((Position.eq_iff pos b).2 h)
      simp [checkSelfCollison.loop, h2, hb, ih]

/-- The result of `checkSelfCollison` is membership in the body. -/
theorem checkSelfCollison_iff (g : Game F) (pos : Position) :
    checkSelfCollison g pos = true ↔ pos ∈ g.snakeBody := by
  unfold checkSelfCollison
  exact checkSelfCollison_loop_iff pos g.snakeBody

/-- The iterations of `createExplosion` append their particles, in order, and
write nothing else. -/
theorem createExplosion_loop_eq (g : Game F) (x y : F) (draw : Nat → F × F × F)
    (iters : List Nat) :
    createExplosion.loop g x y draw iters =
      { g with
        particles :=
          g.particles ++
            iters.map (fun i => newParticle x y (draw i).1 (draw i).2.1 (draw i).2.2) } := by
  unfold createExplosion.loop
  induction iters generalizing g with
  | nil => simp
  | cons i rest ih =>
    rw [List.foldl_cons, ih]
    simp

/-- A call while the game is over and Space is not pressed returns the state as it is. -/
theorem Update_frozen (ops : Float64 F) (g : Game F) (inp : Input F)
    (hover : g.gameOver = true) (hspace : inp.pressed .Space = false) :
    Update ops g inp = some (g, []) := by
  simp [Update, hover, hspace]

/-- A call while the game is over with Space pressed is `restart`. -/
theorem Update_restart (ops : Float64 F) (g : Game F) (inp : Input F)
    (hover : g.gameOver = true) (hspace : inp.pressed .Space = true) :
    Update ops g inp = some (restart g inp.cellX inp.cellY, []) := by
  simp [Update, hover, hspace]

/-- A call below the move interval handles the keys and steps the particles. -/
theorem Update_idle (ops : Float64 F) (g : Game F) (inp : Input F)
    (hover : g.gameOver = false) (htime : ¬ inp.now - g.lastMove > g.moveSpeed) :
    Update ops g inp =
      some ({ g with
              direction := applyKeys inp.pressed g.direction
              particles := updateParticles ops g.particles }, []) := by
  simp only [Update, hover, htime]
  simp

/-- A movement step whose new head is a body segment ends the game. -/
theorem Update_collision (ops : Float64 F) (g : Game F) (inp : Input F)
    (head : Position) (rest : List Position)
    (hover : g.gameOver = false) (hbody : g.snakeBody = head :: rest)
    (htime : inp.now - g.lastMove > g.moveSpeed)
    (hcol : nextHead head (applyKeys inp.pressed g.direction) ∈ g.snakeBody) :
    Update ops g inp =
      some ({ g with
              direction := applyKeys inp.pressed g.direction
              gameOver := true }, [.playGameOverSound]) := by
  have hc : checkSelfCollison.loop (nextHead head (applyKeys inp.pressed g.direction))
      (head :: rest) = true := by
    rw [checkSelfCollison_loop_iff, ← hbody]; exact hcol
  simp [Update, hover, hbody, htime, checkSelfCollison, hc]

/-- A movement step whose new head is no body segment. -/
theorem Update_move (ops : Float64 F) (g : Game F) (inp : Input F)
    (head : Position) (rest : List Position)
    (hover : g.gameOver = false) (hbody : g.snakeBody = head :: rest)
    (htime : inp.now - g.lastMove > g.moveSpeed)
    (hcol : nextHead head (applyKeys inp.pressed g.direction) ∉ g.snakeBody) :
    Update ops g inp =
      some (movedGame ops g inp (nextHead head (applyKeys inp.pressed g.direction)),
        movedSpawned ops g (nextHead head (applyKeys inp.pressed g.direction))) := by
  have hc : checkSelfCollison.loop (nextHead head (applyKeys inp.pressed g.direction))
      (head :: rest) = false := by
    rw [← Bool.not_eq_true, checkSelfCollison_loop_iff, ← hbody]; exact hcol
  by_cases hfood : nextHead head (applyKeys inp.pressed g.direction) = g.foodPos
  · have hc2 : checkSelfCollison.loop g.foodPos (head :: rest) = false := by
      rw [← hfood]; exact hc
    simp [Update, hover, hbody, htime, checkSelfCollison, hc2, movedGame, movedSpawned,
      hfood, placeFood, createExplosion_loop_eq, earlyParticles]
  · have hf : ¬ ((nextHead head (applyKeys inp.pressed g.direction)).X = g.foodPos.X ∧
        (nextHead head (applyKeys inp.pressed g.direction)).Y = g.foodPos.Y) :=
      fun h => hfood ((Position.eq_iff _ _).2 h)
    cases hg : g.grow <;>
      simp [Update, hover, hbody, htime, checkSelfCollison, hc, movedGame, movedSpawned,
        hfood, hf, hg]

/-! ## Movement step: plain move, growth, self-collision -/

/-- With the grow flag clear, a movement step whose wrapped new head is no body
segment and not the food puts the new head in front and drops the last
segment; score and food stay. -/
theorem Update_plain_move (ops : Float64 F) (g : Game F) (inp : Input F)
    (head : Position) (rest : List Position)
    (hover : g.gameOver = false) (hgrow : g.grow = false)
    (hbody : g.snakeBody = head :: rest)
    (htime : inp.now - g.lastMove > g.moveSpeed)
    (hcol : ∀ seg ∈ g.snakeBody, nextHead head (applyKeys inp.pressed g.direction) ≠ seg)
    (hfood : nextHead head (applyKeys inp.pressed g.direction) ≠ g.foodPos) :
    ∃ g2 spawned, Update ops g inp = some (g2, spawned) ∧
      g2.snakeBody =
        nextHead head (applyKeys inp.pressed g.direction) :: g.snakeBody.dropLast ∧
      g2.snakeBody.length = g.snakeBody.length ∧
      g2.score = g.score ∧ g2.foodPos = g.foodPos := by
  have hmem : nextHead head (applyKeys inp.pressed g.direction) ∉ g.snakeBody :=
    fun h => hcol _ h rfl
  refine ⟨_, _, Update_move ops g inp head rest hover hbody htime hmem, ?_, ?_, ?_, ?_⟩
  · simp [movedGame, hfood, hgrow]
  · simp [movedGame, hfood, hgrow, hbody]
  · simp [movedGame, hfood]
  · simp [movedGame, hfood]

/-- C2: in a state with gameOver = false, grow = false and a non-empty body, a
movement step of `Update` whose wrapped new head is the food and no body
segment returns a state whose body is the new head followed by the whole old
body (length + 1), whose score is the old score + 10 and whose grow flag is
false. -/
theorem growth_and_score (ops : Float64 F) (g : Game F) (inp : Input F)
    (head : Position) (rest : List Position)
    (hover : g.gameOver = false) (_hgrow : g.grow = false)
    (hbody : g.snakeBody = head :: rest)
    (htime : inp.now - g.lastMove > g.moveSpeed)
    (hfood : nextHead head (applyKeys inp.pressed g.direction) = g.foodPos)
    (hcol : ∀ seg ∈ g.snakeBody, nextHead head (applyKeys inp.pressed g.direction) ≠ seg) :
    ∃ g2 spawned, Update ops g inp = some (g2, spawned) ∧
      g2.snakeBody = nextHead head (applyKeys inp.pressed g.direction) :: g.snakeBody ∧
      g2.snakeBody.length = g.snakeBody.length + 1 ∧
      g2.score = g.score + 10 ∧ g2.grow = false := by
  have hmem : nextHead head (applyKeys inp.pressed g.direction) ∉ g.snakeBody :=
    fun h => hcol _ h rfl
  refine ⟨_, _, Update_move ops g inp head rest hover hbody htime hmem, ?_, ?_, ?_, ?_⟩
  · simp [movedGame, hfood]
  · simp [movedGame, hfood]
  · simp [movedGame, hfood]
  · simp [movedGame, hfood]

/-- C2 at the start position with the food on (320,240): four segments, score 10. -/
theorem growth_and_score_witness :
    foodAheadGame.gameOver = false ∧ foodAheadGame.grow = false ∧
    ∃ g2 spawned, Update exactOps foodAheadGame tickInput = some (g2, spawned) ∧
      g2.snakeBody = { X := 320, Y := 240 } :: [{ X := 300, Y := 240 }, { X := 280, Y := 240 },
        { X := 260, Y := 240 }] ∧
      g2.snakeBody.length = 3 + 1 ∧ g2.score = 0 + 10 ∧ g2.grow = false :=
  ⟨rfl, rfl,
    growth_and_score exactOps foodAheadGame tickInput { X := 300, Y := 240 }
      [{ X := 280, Y := 240 }, { X := 260, Y := 240 }] rfl rfl rfl
      (by decide) (by decide) (by decide)⟩

/-- C3: in a state with gameOver = false and a non-empty body, a movement step
of `Update` whose wrapped new head equals some current body segment (the last
one included) has checkSelfCollison true and returns a state with gameOver =
true and snakeBody, score, foodPos, grow and particles as before the call. -/
theorem self_collision_step (ops : Float64 F) (g : Game F) (inp : Input F)
    (head : Position) (rest : List Position)
    (hover : g.gameOver = false) (hbody : g.snakeBody = head :: rest)
    (htime : inp.now - g.lastMove > g.moveSpeed)
    (hcol : ∃ seg ∈ g.snakeBody, nextHead head (applyKeys inp.pressed g.direction) = seg) :
    checkSelfCollison g (nextHead head (applyKeys inp.pressed g.direction)) = true ∧
    ∃ g2 spawned, Update ops g inp = some (g2, spawned) ∧
      g2.gameOver = true ∧ g2.snakeBody = g.snakeBody ∧ g2.score = g.score ∧
      g2.foodPos = g.foodPos ∧ g2.grow = g.grow ∧ g2.particles = g.particles := by
  have hmem : nextHead head (applyKeys inp.pressed g.direction) ∈ g.snakeBody := by
    obtain ⟨seg, hseg, heq⟩ := hcol
    rw [heq]; exact hseg
  exact ⟨(checkSelfCollison_iff g _).2 hmem, _, _,
    Update_collision ops g inp head rest hover hbody htime hmem, rfl, rfl, rfl, rfl, rfl, rfl⟩

/-- C3 on the coiled snake: turning Right from (0,0) steps onto the tail
(20,0), the segment a plain move would have removed, and the game ends. -/
theorem self_collision_step_witness :
    coiledGame.gameOver = false ∧
    coiledGame.snakeBody.getLast? = some { X := 20, Y := 0 } ∧
    nextHead { X := 0, Y := 0 }
      (applyKeys (keyInput Key.Right 200000000).pressed coiledGame.direction) =
        { X := 20, Y := 0 } ∧
    checkSelfCollison coiledGame
      (nextHead { X := 0, Y := 0 }
        (applyKeys (keyInput Key.Right 200000000).pressed coiledGame.direction)) = true ∧
    ∃ g2 spawned, Update exactOps coiledGame (keyInput Key.Right 200000000) = some (g2, spawned) ∧
      g2.gameOver = true ∧ g2.snakeBody = coiledGame.snakeBody ∧ g2.score = coiledGame.score ∧
      g2.foodPos = coiledGame.foodPos ∧ g2.grow = coiledGame.grow ∧
      g2.particles = coiledGame.particles :=
  ⟨rfl, rfl, by decide,
    self_collision_step exactOps coiledGame (keyInput Key.Right 200000000) { X := 0, Y := 0 }
      [{ X := 0, Y := 20 }, { X := 20, Y := 20 }, { X := 20, Y := 0 }] rfl rfl
      (by decide) ⟨{ X := 20, Y := 0 }, by decide, by decide⟩⟩

/-! ## Game over, wrap-around, key handling -/

/-- C4: in a state with gameOver = true, a call of `Update` whose pressed keys
do not include Space returns the state unchanged, whatever the other keys, the
clock readings and the draws; so does any run of such calls. -/
theorem frozen_while_game_over (ops : Float64 F) (g : Game F)
    (hover : g.gameOver = true) :
    (∀ inp : Input F, inp.pressed .Space = false → Update ops g inp = some (g, [])) ∧
    (∀ inps : List (Input F), (∀ inp ∈ inps, inp.pressed .Space = false) →
      runUpdates ops g inps = some g) := by
  refine ⟨fun inp h => Update_frozen ops g inp hover h, ?_⟩
  intro inps
  induction inps with
  | nil => intro _; rfl
  | cons inp rest ih =>
    intro h
    have h1 : inp.pressed .Space = false := h inp (List.mem_cons_self _ _)
    have h2 : ∀ i ∈ rest, i.pressed .Space = false :=
      fun i hi => h i (List.mem_cons_of_mem _ hi)
    simp [runUpdates, Update_frozen ops g inp hover h1, ih h2]

/-- C4 on a finished game: calls with no key, with an arrow key, early or late,
leave the state as it is. -/
theorem frozen_while_game_over_witness :
    overGame.gameOver = true ∧
    Update exactOps overGame (keyInput Key.Left 900000000) = some (overGame, []) ∧
    runUpdates exactOps overGame [tickInput, keyInput Key.Up 0, keyInput Key.Right 900000000] =
      some overGame :=
  ⟨rfl,
    (frozen_while_game_over exactOps overGame rfl).1 (keyInput Key.Left 900000000) (by decide),
    (frozen_while_game_over exactOps overGame rfl).2
      [tickInput, keyInput Key.Up 0, keyInput Key.Right 900000000] (by decide)⟩

/-- C5: on a movement step of `Update` from a head with 0 <= X <= screenWidth
and 0 <= Y <= screenHeight, the call returns and, unless it ends the game, the
first body segment is the wrapped new head; that new head is (0, Y) when
X = screenWidth heading Right, (X, 0) when Y = screenHeight heading Down,
(screenWidth - gridSize, Y) when X = 0 heading Left and
(X, screenHeight - gridSize) when Y = 0 heading Up. -/
theorem wrap_around (ops : Float64 F) (g : Game F) (inp : Input F)
    (head : Position) (rest : List Position)
    (hover : g.gameOver = false) (hbody : g.snakeBody = head :: rest)
    (htime : inp.now - g.lastMove > g.moveSpeed)
    (hx : 0 ≤ head.X ∧ head.X ≤ screenWidth) (hy : 0 ≤ head.Y ∧ head.Y ≤ screenHeight) :
    (∃ g2 spawned, Update ops g inp = some (g2, spawned) ∧
      (g2.gameOver = false →
        g2.snakeBody.head? = some (nextHead head (applyKeys inp.pressed g.direction)))) ∧
    (head.X = screenWidth → applyKeys inp.pressed g.direction = .Right →
      nextHead head (applyKeys inp.pressed g.direction) = { X := 0, Y := head.Y }) ∧
    (head.Y = screenHeight → applyKeys inp.pressed g.direction = .Down →
      nextHead head (applyKeys inp.pressed g.direction) = { X := head.X, Y := 0 }) ∧
    (head.X = 0 → applyKeys inp.pressed g.direction = .Left →
      nextHead head (applyKeys inp.pressed g.direction) =
        { X := screenWidth - gridSize, Y := head.Y }) ∧
    (head.Y = 0 → applyKeys inp.pressed g.direction = .Up →
      nextHead head (applyKeys inp.pressed g.direction) =
        { X := head.X, Y := screenHeight - gridSize }) := by
  obtain ⟨hx0, hx1⟩ := hx
  obtain ⟨hy0, hy1⟩ := hy
  have hy2 : ¬ head.Y < 0 := not_lt.mpr hy0
  have hy3 : ¬ head.Y > screenHeight := not_lt.mpr hy1
  have hx2 : ¬ head.X < 0 := not_lt.mpr hx0
  have hx3 : ¬ head.X > screenWidth := not_lt.mpr hx1
  refine ⟨?_, ?_, ?_, ?_, ?_⟩
  · by_cases hmem : nextHead head (applyKeys inp.pressed g.direction) ∈ g.snakeBody
    · exact ⟨_, _, Update_collision ops g inp head rest hover hbody htime hmem,
        fun h => by simp at h⟩
    · refine ⟨_, _, Update_move ops g inp head rest hover hbody htime hmem, fun _ => ?_⟩
      unfold movedGame
      split <;> rfl
  · intro h hd
    rw [hd]
    simp only [nextHead, moveHead, wrapHead, h, hy2, hy3, if_false]
    simp [screenWidth, gridSize]
  · intro h hd
    rw [hd]
    simp only [nextHead, moveHead, wrapHead, h, hx2, hx3, if_false]
    simp [screenHeight, gridSize]
  · intro h hd
    rw [hd]
    simp only [nextHead, moveHead, wrapHead, h, hy2, hy3, if_false]
    simp [gridSize]
  · intro h hd
    rw [hd]
    simp only [nextHead, moveHead, wrapHead, h, hx2, hx3, if_false]
    simp [gridSize]

/-- C5 at head (640,240) heading Right: the new head is (0,240) and it is the
first segment after the call. -/
theorem wrap_around_witness :
    edgeGame.gameOver = false ∧
    Update exactOps edgeGame tickInput =
      some ({ edgeGame with
              snakeBody := [{ X := 0, Y := 240 }, { X := 640, Y := 240 }, { X := 620, Y := 240 }]
              lastMove := 200000000 }, []) ∧
    nextHead { X := 640, Y := 240 } (applyKeys tickInput.pressed edgeGame.direction) =
      { X := 0, Y := 240 } :=
  ⟨rfl, by decide,
    (wrap_around exactOps edgeGame tickInput { X := 640, Y := 240 }
      [{ X := 620, Y := 240 }, { X := 600, Y := 240 }] rfl rfl (by decide) (by decide)
      (by decide)).2.1 rfl (by decide)⟩

/-- Key handling never yields the opposite heading. -/
theorem applyKeys_ne_opposite (pressed : Key → Bool) (d : Direction) :
    applyKeys pressed d ≠ d.opposite := by
  unfold applyKeys
  cases d <;> cases pressed .Right <;> cases pressed .Left <;> cases pressed .Down <;>
    cases pressed .Up <;> decide

/-- With the opposite arrow as the only arrow pressed the heading is kept. -/
theorem applyKeys_only_opposite (pressed : Key → Bool) (d : Direction)
    (honly : ∀ d2 : Direction, pressed (arrowKey d2) = true ↔ d2 = d.opposite) :
    applyKeys pressed d = d := by
  have hR := honly .Right
  have hL := honly .Left
  have hU := honly .Up
  have hD := honly .Down
  unfold applyKeys
  cases d <;> simp [arrowKey, Direction.opposite] at hR hL hU hD <;>
    simp [hR, hL, hU, hD]

/-- The heading after any returning call on a game that is not over is the one
the key handling chose. -/
theorem Update_direction (ops : Float64 F) (g : Game F) (inp : Input F)
    (hover : g.gameOver = false) (g2 : Game F) (spawned : List (Spawned F))
    (h : Update ops g inp = some (g2, spawned)) :
    g2.direction = applyKeys inp.pressed g.direction := by
  by_cases htime : inp.now - g.lastMove > g.moveSpeed
  · cases hbody : g.snakeBody with
    | nil => simp [Update, hover, htime, hbody] at h
    | cons head rest =>
      by_cases hmem : nextHead head (applyKeys inp.pressed g.direction) ∈ g.snakeBody
      · rw [Update_collision ops g inp head rest hover hbody htime hmem] at h
        simp only [Option.some.injEq, Prod.mk.injEq] at h
        rw [← h.1]
      · rw [Update_move ops g inp head rest hover hbody htime hmem] at h
        simp only [Option.some.injEq, Prod.mk.injEq] at h
        rw [← h.1]
        unfold movedGame
        split <;> rfl
  · rw [Update_idle ops g inp hover htime] at h
    simp only [Option.some.injEq, Prod.mk.injEq] at h
    rw [← h.1]

/-- A call on a game with a non-empty body returns. -/
theorem Update_returns (ops : Float64 F) (g : Game F) (inp : Input F)
    (hbody : g.snakeBody ≠ []) : ∃ r, Update ops g inp = some r := by
  cases hover : g.gameOver with
  | true =>
    cases hspace : inp.pressed .Space with
    | true => exact ⟨_, Update_restart ops g inp hover hspace⟩
    | false => exact ⟨_, Update_frozen ops g inp hover hspace⟩
  | false =>
    by_cases htime : inp.now - g.lastMove > g.moveSpeed
    · cases hb : g.snakeBody with
      | nil => exact absurd hb hbody
      | cons head rest =>
        by_cases hmem : nextHead head (applyKeys inp.pressed g.direction) ∈ g.snakeBody
        · exact ⟨_, Update_collision ops g inp head rest hover hb htime hmem⟩
        · exact ⟨_, Update_move ops g inp head rest hover hb htime hmem⟩
    · exact ⟨_, Update_idle ops g inp hover htime⟩

/-- C6: for every state with gameOver = false and every set of pressed keys,
the heading chosen by the key handling of `Update`, which is the heading of
the state the call returns, is never the opposite of the heading before the
call; and when the only arrow key pressed is the opposite one, the heading is
kept and a movement step of that call moves the head along it. -/
theorem reversal_guard (ops : Float64 F) (g : Game F) (inp : Input F)
    (hover : g.gameOver = false) :
    applyKeys inp.pressed g.direction ≠ g.direction.opposite ∧
    (∀ g2 spawned, Update ops g inp = some (g2, spawned) →
      g2.direction = applyKeys inp.pressed g.direction ∧
      g2.direction ≠ g.direction.opposite) ∧
    (g.snakeBody ≠ [] → ∃ r, Update ops g inp = some r) ∧
    ((∀ d2 : Direction, inp.pressed (arrowKey d2) = true ↔ d2 = g.direction.opposite) →
      applyKeys inp.pressed g.direction = g.direction ∧
      ∀ head rest, g.snakeBody = head :: rest → inp.now - g.lastMove > g.moveSpeed →
        ∃ g2 spawned, Update ops g inp = some (g2, spawned) ∧ g2.direction = g.direction ∧
          (g2.gameOver = false → g2.snakeBody.head? = some (nextHead head g.direction))) := by
  refine ⟨applyKeys_ne_opposite _ _, ?_, Update_returns ops g inp, ?_⟩
  · intro g2 spawned h
    have hd := Update_direction ops g inp hover g2 spawned h
    exact ⟨hd, hd ▸ applyKeys_ne_opposite _ _⟩
  · intro honly
    have hkeep := applyKeys_only_opposite inp.pressed g.direction honly
    refine ⟨hkeep, ?_⟩
    intro head rest hbody htime
    by_cases hmem : nextHead head (applyKeys inp.pressed g.direction) ∈ g.snakeBody
    · refine ⟨_, _, Update_collision ops g inp head rest hover hbody htime hmem, hkeep, ?_⟩
      intro h
      simp at h
    · refine ⟨_, _, Update_move ops g inp head rest hover hbody htime hmem, ?_, ?_⟩
      · rw [← hkeep]
        unfold movedGame
        split <;> simp [hkeep]
      · intro _
        rw [← hkeep]
        unfold movedGame
        split <;> simp [hkeep]

/-- C6 at the start position heading Right with only Left pressed: the heading
stays Right and the head moves right to (320,240). -/
theorem reversal_guard_witness :
    startGame.gameOver = false ∧ startGame.direction = Direction.Right ∧
    applyKeys (keyInput Key.Left 200000000).pressed startGame.direction = Direction.Right ∧
    ∃ g2 spawned, Update exactOps startGame (keyInput Key.Left 200000000) = some (g2, spawned) ∧
      g2.direction = Direction.Right ∧
      (g2.gameOver = false → g2.snakeBody.head? = some { X := 320, Y := 240 }) :=
  ⟨rfl, rfl, by decide,
    ((reversal_guard exactOps startGame (keyInput Key.Left 200000000) rfl).2.2.2
      (by intro d2; cases d2 <;> decide)).2 { X := 300, Y := 240 } [{ X := 280, Y := 240 }, { X := 260, Y := 240 }]
      rfl (by decide)⟩

/-- C7 fails on the code: from the start position a first call moves Right;
then Up and Left are pressed on two calls inside one move interval, each turn
passing the guard; the next movement step heads Left, the opposite of the
previous one, onto the segment (300,240) just left, and the game is over. -/
theorem reversal_between_moves :
    movementTrace exactOps startGame
      [tickInput, keyInput Key.Up 250000000, keyInput Key.Left 280000000,
        { tickInput with now := 350000000 }] = [Direction.Right, Direction.Left] ∧
    Direction.Left = Direction.Right.opposite ∧
    runUpdates exactOps startGame [tickInput] =
      some { startGame with
             snakeBody := [{ X := 320, Y := 240 }, { X := 300, Y := 240 }, { X := 280, Y := 240 }]
             lastMove := 200000000 } ∧
    runUpdates exactOps startGame
      [tickInput, keyInput Key.Up 250000000, keyInput Key.Left 280000000] =
      some { startGame with
             snakeBody := [{ X := 320, Y := 240 }, { X := 300, Y := 240 }, { X := 280, Y := 240 }]
             direction := Direction.Left
             lastMove := 200000000 } ∧
    runUpdates exactOps startGame
      [tickInput, keyInput Key.Up 250000000, keyInput Key.Left 280000000,
        { tickInput with now := 350000000 }] =
      some { startGame with
             snakeBody := [{ X := 320, Y := 240 }, { X := 300, Y := 240 }, { X := 280, Y := 240 }]
             direction := Direction.Left
             lastMove := 200000000
             gameOver := true } := by
  refine ⟨by decide, rfl, by decide, by decide, by decide⟩

/-! ## Restart -/

/-- C8: in a state with gameOver = true, a call of `Update` with Space pressed
returns the state `restart` builds: gameOver = false, direction Right, score 0,
no particles, a body of three segments on one row, each gridSize left of the
one before; the food is at (cellX * gridSize, cellY * gridSize), which for
draws in the range of `rand.Intn` is a cell of the board. -/
theorem restart_resets (ops : Float64 F) (g : Game F) (inp : Input F)
    (hover : g.gameOver = true) (hspace : inp.pressed .Space = true)
    (hx : 0 ≤ inp.cellX ∧ inp.cellX < screenWidth / gridSize)
    (hy : 0 ≤ inp.cellY ∧ inp.cellY < screenHeight / gridSize) :
    ∃ g2, Update ops g inp = some (g2, []) ∧ g2 = restart g inp.cellX inp.cellY ∧
      g2.gameOver = false ∧ g2.direction = .Right ∧ g2.score = 0 ∧ g2.particles = [] ∧
      (∃ a b c : Position, g2.snakeBody = [a, b, c] ∧ b.Y = a.Y ∧ c.Y = b.Y ∧
        b.X = a.X - gridSize ∧ c.X = b.X - gridSize) ∧
      g2.foodPos = { X := inp.cellX * gridSize, Y := inp.cellY * gridSize } ∧
      (gridSize ∣ g2.foodPos.X ∧ 0 ≤ g2.foodPos.X ∧ g2.foodPos.X ≤ screenWidth - gridSize) ∧
      (gridSize ∣ g2.foodPos.Y ∧ 0 ≤ g2.foodPos.Y ∧ g2.foodPos.Y ≤ screenHeight - gridSize) := by
  refine ⟨_, Update_restart ops g inp hover hspace, rfl, rfl, rfl, rfl, rfl, ?_, rfl, ?_, ?_⟩
  · exact ⟨_, _, _, rfl, rfl, rfl, rfl, by simp [gridSize]; ring⟩
  · have h1 : screenWidth / gridSize = 32 := by decide
    have h2 : screenWidth - gridSize = 620 := by decide
    rw [h1] at hx
    simp only [restart, placeFood, h2]
    simp only [gridSize]
    exact ⟨Dvd.intro_left _ rfl, by omega, by omega⟩
  · have h1 : screenHeight / gridSize = 24 := by decide
    have h2 : screenHeight - gridSize = 460 := by decide
    rw [h1] at hy
    simp only [restart, placeFood, h2]
    simp only [gridSize]
    exact ⟨Dvd.intro_left _ rfl, by omega, by omega⟩

/-- C8 on a finished game with score 40 and a particle left: Space with draws
(3, 4) gives the restarted game with food on (60, 80). -/
theorem restart_resets_witness :
    overGame.gameOver = true ∧ overGame.score = 40 ∧
    ∃ g2, Update exactOps overGame (keyInput Key.Space 0) = some (g2, []) ∧
      g2 = restart overGame 3 4 ∧
      g2.gameOver = false ∧ g2.direction = Direction.Right ∧ g2.score = 0 ∧ g2.particles = [] ∧
      (∃ a b c : Position, g2.snakeBody = [a, b, c] ∧ b.Y = a.Y ∧ c.Y = b.Y ∧
        b.X = a.X - gridSize ∧ c.X = b.X - gridSize) ∧
      g2.foodPos = { X := 3 * gridSize, Y := 4 * gridSize } ∧
      (gridSize ∣ g2.foodPos.X ∧ 0 ≤ g2.foodPos.X ∧ g2.foodPos.X ≤ screenWidth - gridSize) ∧
      (gridSize ∣ g2.foodPos.Y ∧ 0 ≤ g2.foodPos.Y ∧ g2.foodPos.Y ≤ screenHeight - gridSize) :=
  ⟨rfl, rfl,
    restart_resets exactOps overGame (keyInput Key.Space 0) rfl rfl (by decide) (by decide)⟩

/-- C9 fails on the code: whatever the state and the draws, the body `restart`
builds is (320,240),(300,240),(280,240), one cell right of the body
(300,240),(280,240),(260,240) that `main` builds. -/
theorem restart_body_differs_from_main (g : Game F) (cellX cellY now cellX0 cellY0 : Int) :
    (restart g cellX cellY).snakeBody =
      [{ X := 320, Y := 240 }, { X := 300, Y := 240 }, { X := 280, Y := 240 }] ∧
    (mainGame now cellX0 cellY0 : Game F).snakeBody =
      [{ X := 300, Y := 240 }, { X := 280, Y := 240 }, { X := 260, Y := 240 }] ∧
    (restart g cellX cellY).snakeBody ≠ (mainGame now cellX0 cellY0 : Game F).snakeBody := by
  refine ⟨?_, rfl, ?_⟩
  · simp [restart, placeFood, screenWidth, screenHeight, gridSize]
  · simp [restart, placeFood, mainGame, screenWidth, screenHeight, gridSize]

/-! ## Particle update -/

/-- The particle loop started with `acc` appends the stepped live particles. -/
theorem updateParticles_loop (ops : Float64 F) (particles acc : List (Particle F)) :
    particles.foldl
        (fun activeParticles p =>
          if p.life > 0 then activeParticles ++ [stepParticle ops p] else activeParticles)
        acc =
      acc ++ (particles.filter (fun p => decide (p.life > 0))).map (stepParticle ops) := by
  induction particles generalizing acc with
  | nil => simp
  | cons p rest ih =>
    by_cases hp : p.life > 0
    · simp [List.foldl_cons, ih, hp]
    · simp [List.foldl_cons, ih, hp]

/-- The particle update keeps the live particles, in order, each stepped once. -/
theorem updateParticles_eq (ops : Float64 F) (particles : List (Particle F)) :
    updateParticles ops particles =
      (particles.filter (fun p => decide (p.life > 0))).map (stepParticle ops) := by
  unfold updateParticles
  rw [updateParticles_loop]
  simp

/-- A stepped particle stands in `SteppedFrom` to the particle it came from. -/
theorem steppedFrom_stepParticle (ops : Float64 F) (p : Particle F) :
    SteppedFrom ops p (stepParticle ops p) :=
  ⟨rfl, rfl, rfl, rfl, rfl, rfl⟩

/-- Mapping a list by `stepParticle` relates it to the result elementwise. -/
theorem forall₂_map_stepParticle (ops : Float64 F) (ps : List (Particle F)) :
    List.Forall₂ (SteppedFrom ops) ps (ps.map (stepParticle ops)) := by
  induction ps with
  | nil => exact List.Forall₂.nil
  | cons p rest ih => exact List.Forall₂.cons (steppedFrom_stepParticle ops p) ih

/-- The particles of the state returned by a call that starts and ends with the
game not over are the updated particles of the list before the call extended
by new explosion particles (none unless an explosion was started). -/
theorem Update_particles_early (ops : Float64 F) (g : Game F) (inp : Input F)
    (hover : g.gameOver = false) (g2 : Game F) (spawned : List (Spawned F))
    (h : Update ops g inp = some (g2, spawned)) (hover2 : g2.gameOver = false) :
    ∃ news : List (Particle F),
      (∀ q ∈ news, ∃ x y dx dy size, q = newParticle x y dx dy size) ∧
      g2.particles = updateParticles ops (g.particles ++ news) ∧
      ((∀ x y, Spawned.createExplosion x y ∉ spawned) → news = []) := by
  by_cases htime : inp.now - g.lastMove > g.moveSpeed
  · cases hbody : g.snakeBody with
    | nil => simp [Update, hover, htime, hbody] at h
    | cons head rest =>
      by_cases hmem : nextHead head (applyKeys inp.pressed g.direction) ∈ g.snakeBody
      · rw [Update_collision ops g inp head rest hover hbody htime hmem] at h
        simp only [Option.some.injEq, Prod.mk.injEq] at h
        rw [← h.1] at hover2
        simp at hover2
      · rw [Update_move ops g inp head rest hover hbody htime hmem] at h
        simp only [Option.some.injEq, Prod.mk.injEq] at h
        by_cases hfood : nextHead head (applyKeys inp.pressed g.direction) = g.foodPos
        · refine ⟨earlyParticles ops g inp, ?_, ?_, ?_⟩
          · intro q hq
            unfold earlyParticles at hq
            rw [List.mem_map] at hq
            obtain ⟨i, _, rfl⟩ := hq
            exact ⟨_, _, _, _, _, rfl⟩
          · rw [← h.1]
            simp [movedGame, hfood]
          · intro hquiet
            have hsp : Spawned.createExplosion (ops.ofInt g.foodPos.X) (ops.ofInt g.foodPos.Y) ∈
                spawned := by
              rw [← h.2]
              simp [movedSpawned, hfood]
            exact absurd hsp (hquiet _ _)
        · refine ⟨[], ?_, ?_, fun _ => rfl⟩
          · intro q hq
            simp at hq
          · rw [← h.1]
            simp [movedGame, hfood]
  · rw [Update_idle ops g inp hover htime] at h
    simp only [Option.some.injEq, Prod.mk.injEq] at h
    refine ⟨[], ?_, ?_, fun _ => rfl⟩
    · intro q hq
      simp at hq
    · rw [← h.1]
      simp

/-- The particles of the state returned by a call that starts and ends with the
game not over and starts no `createExplosion` goroutine are the updated
particles of the state before. -/
theorem Update_particles (ops : Float64 F) (g : Game F) (inp : Input F)
    (hover : g.gameOver = false) (g2 : Game F) (spawned : List (Spawned F))
    (h : Update ops g inp = some (g2, spawned)) (hover2 : g2.gameOver = false)
    (hquiet : ∀ x y, Spawned.createExplosion x y ∉ spawned) :
    g2.particles = updateParticles ops g.particles := by
  obtain ⟨news, _, hp, hnil⟩ := Update_particles_early ops g inp hover g2 spawned h hover2
  rw [hp, hnil hquiet, List.append_nil]

/-- C10 (amended): a call of `Update` on a state with gameOver = false returns
whenever the body is non-empty; if the returned state still has gameOver =
false and the call started no `createExplosion` goroutine (the snake ate no
food on it) then, whether or not the snake moved, its particle list is the list
of the particles that had life > 0 before the call, in their order, each with
life one less, position advanced by its velocity and velocity and size
unchanged; no other particle is in it. -/
theorem particle_update (ops : Float64 F) (g : Game F) (inp : Input F)
    (hover : g.gameOver = false) :
    (g.snakeBody ≠ [] → ∃ r, Update ops g inp = some r) ∧
    ∀ g2 spawned, Update ops g inp = some (g2, spawned) → g2.gameOver = false →
      (∀ x y, Spawned.createExplosion x y ∉ spawned) →
      List.Forall₂ (SteppedFrom ops)
        (g.particles.filter (fun p => decide (p.life > 0))) g2.particles ∧
      g2.particles.length = (g.particles.filter (fun p => decide (p.life > 0))).length := by
  refine ⟨Update_returns ops g inp, ?_⟩
  intro g2 spawned h hover2 hquiet
  rw [Update_particles ops g inp hover g2 spawned h hover2 hquiet, updateParticles_eq]
  exact ⟨forall₂_map_stepParticle ops _, by simp⟩

/-- C10 on three particles of life 30, 0 and 1, on a call that moves the snake
(no food eaten) and on one that does not: the first and third remain, in that
order, with life 29 and 0 and advanced positions. -/
theorem particle_update_witness :
    sparkGame.gameOver = false ∧
    (sparkGame.particles.filter (fun p => decide (p.life > 0))).map (fun p => p.life) = [30, 1] ∧
    (Update exactOps sparkGame tickInput).map
      (fun r => (r.1.snakeBody.head?, r.1.gameOver, r.1.particles.map (fun p => p.life))) =
      some (some { X := 320, Y := 240 }, false, [29, 0]) ∧
    (Update exactOps sparkGame (keyInput Key.Up 50000000)).map
      (fun r => (r.1.snakeBody.head?, r.1.gameOver, r.1.particles.map (fun p => p.life))) =
      some (some { X := 300, Y := 240 }, false, [29, 0]) ∧
    (updateParticles exactOps sparkGame.particles).map (fun p => (p.x, p.y, p.dx, p.dy, p.size)) =
      [(3 / 2, 7 / 3, 1 / 2, 1 / 3, 2), (6, 6, 1, 1, 1)] ∧
    List.Forall₂ (SteppedFrom exactOps)
      (sparkGame.particles.filter (fun p => decide (p.life > 0)))
      (updateParticles exactOps sparkGame.particles) ∧
    (updateParticles exactOps sparkGame.particles).length =
      (sparkGame.particles.filter (fun p => decide (p.life > 0))).length :=
  ⟨rfl, by decide, by decide, by decide,
    by norm_num [updateParticles, sparkGame, stepParticle, exactOps, newParticle, particleLife],
    (particle_update exactOps sparkGame (keyInput Key.Up 50000000) rfl).2 _ _
      (Update_idle exactOps sparkGame (keyInput Key.Up 50000000) rfl (by decide)) rfl
      (by intro x y h; simp at h)⟩

/-- C10 as stated fails on a call that eats food: `firstFoodGame`, the game
`main` builds with the food right of the head, has no particle; the first
movement step eats the food and starts `createExplosion`, and when that
goroutine has appended its 30 particles before the particle loop reads the
list, the call returns, game not over, with 30 particles of life 29, none of
which was in the list before. -/
theorem particle_update_explosion_counterexample :
    Reachable exactOps firstFoodGame ∧ firstFoodGame.gameOver = false ∧
    firstFoodGame.particles.filter (fun p => decide (p.life > 0)) = [] ∧
    (Update exactOps firstFoodGame raceInput).map
      (fun r => (r.1.gameOver, r.1.particles.map (fun p => p.life), r.2.length)) =
      some (false, List.replicate 30 29, 2) ∧
    ∃ g2 spawned, Update exactOps firstFoodGame raceInput = some (g2, spawned) ∧
      g2.gameOver = false ∧
      ¬ List.Forall₂ (SteppedFrom exactOps)
        (firstFoodGame.particles.filter (fun p => decide (p.life > 0))) g2.particles := by
  refine ⟨Reachable.main 0 16 12 (by decide), rfl, rfl, by decide, ?_⟩
  refine ⟨_, _, Update_move exactOps firstFoodGame raceInput { X := 300, Y := 240 }
    [{ X := 280, Y := 240 }, { X := 260, Y := 240 }] rfl rfl (by decide) (by decide),
    by decide, ?_⟩
  intro hrel
  have hlen := hrel.length_eq
  have h30 : (movedGame exactOps firstFoodGame raceInput
      (nextHead { X := 300, Y := 240 }
        (applyKeys raceInput.pressed firstFoodGame.direction))).particles.length = 30 := by
    decide
  rw [h30] at hlen
  exact absurd hlen (by decide)

/-! ## Particle life, move interval, food placement -/

/-- Every particle of the updated list is the step of a particle that was live. -/
theorem mem_updateParticles (ops : Float64 F) (particles : List (Particle F))
    (q : Particle F) (hq : q ∈ updateParticles ops particles) :
    ∃ p ∈ particles, 0 < p.life ∧ q = stepParticle ops p := by
  rw [updateParticles_eq, List.mem_map] at hq
  obtain ⟨p, hp, rfl⟩ := hq
  rw [List.mem_filter] at hp
  exact ⟨p, hp.1, by simpa using hp.2, rfl⟩

/-- C11 (amended): after the particle update of any call of `Update` that
starts and ends with the game not over, no particle of the list has life < 0
(every one has life >= 0); a particle whose life goes from 1 to 0 during the
call is kept by that call, with life 0; it is dropped by the next particle
update, whose particles are steps of particles of life > 0 only, taken from
the list or newly created by an explosion. -/
theorem particle_life_after_update (ops : Float64 F) (g : Game F) (inp : Input F)
    (hover : g.gameOver = false) :
    (g.snakeBody ≠ [] → ∃ r, Update ops g inp = some r) ∧
    ∀ g2 spawned, Update ops g inp = some (g2, spawned) → g2.gameOver = false →
      (∀ q ∈ g2.particles, 0 ≤ q.life) ∧
      (∀ p ∈ g.particles, p.life = 1 →
        stepParticle ops p ∈ g2.particles ∧ (stepParticle ops p).life = 0) ∧
      (∀ inp2 g3 spawned3, Update ops g2 inp2 = some (g3, spawned3) → g3.gameOver = false →
        ∀ r ∈ g3.particles, ∃ q, 0 < q.life ∧ r = stepParticle ops q ∧
          (q ∈ g2.particles ∨ ∃ x y dx dy size, q = newParticle x y dx dy size)) := by
  refine ⟨Update_returns ops g inp, ?_⟩
  intro g2 spawned h hover2
  obtain ⟨news, _, hp, _⟩ := Update_particles_early ops g inp hover g2 spawned h hover2
  refine ⟨?_, ?_, ?_⟩
  · intro q hq
    rw [hp] at hq
    obtain ⟨p, _, hlife, rfl⟩ := mem_updateParticles ops _ q hq
    show 0 ≤ p.life - 1
    omega
  · intro p hpm hlife
    refine ⟨?_, ?_⟩
    · rw [hp, updateParticles_eq, List.mem_map]
      refine ⟨p, ?_, rfl⟩
      rw [List.mem_filter]
      exact ⟨List.mem_append_left _ hpm, by simp [hlife]⟩
    · show p.life - 1 = 0
      omega
  · intro inp2 g3 spawned3 h3 hover3 r hr
    obtain ⟨news3, hnew3, hp3, _⟩ :=
      Update_particles_early ops g2 inp2 hover2 g3 spawned3 h3 hover3
    rw [hp3] at hr
    obtain ⟨q, hq, hlife, rfl⟩ := mem_updateParticles ops _ r hr
    refine ⟨q, hlife, rfl, ?_⟩
    rcases List.mem_append.1 hq with hq2 | hq2
    · exact Or.inl hq2
    · exact Or.inr (hnew3 q hq2)

/-- C11 on the particles of `sparkGame` (life 30, 0 and 1): after a call that
does not move the snake every particle has life >= 0, and the particle of life
1 is in the list with life 0. -/
theorem particle_life_after_update_witness :
    sparkGame.gameOver = false ∧
    (∀ q ∈ updateParticles exactOps sparkGame.particles, 0 ≤ q.life) ∧
    (updateParticles exactOps sparkGame.particles).map (fun q => q.life) = [29, 0] :=
  ⟨rfl,
    ((particle_life_after_update exactOps sparkGame (keyInput Key.Up 50000000) rfl).2 _ _
      (Update_idle exactOps sparkGame (keyInput Key.Up 50000000) rfl (by decide)) rfl).1,
    by decide⟩

set_option maxRecDepth 1000000 in
/-- C11 as stated fails: `sparkGame` holds a particle of life 1; after one call
of `Update`, with or without a move, that particle is still in the list, with
life 0, so a particle with life <= 0 is present after the particle update.
The same happens in a run from the game `main` builds: the particles of the
first explosion have life 1 after 29 calls, are all in the list with life 0
after the 30th and are gone after the 31st. -/
theorem particle_life_zero_kept_counterexample :
    (runUpdates exactOps firstFoodGame (raceInput :: List.replicate 28 idleInput)).map
      (fun g => (g.gameOver, g.particles.map (fun p => p.life))) =
      some (false, List.replicate 30 1) ∧
    (runUpdates exactOps firstFoodGame (raceInput :: List.replicate 29 idleInput)).map
      (fun g => (g.gameOver, g.particles.map (fun p => p.life))) =
      some (false, List.replicate 30 0) ∧
    (runUpdates exactOps firstFoodGame (raceInput :: List.replicate 30 idleInput)).map
      (fun g => (g.gameOver, g.particles.map (fun p => p.life))) = some (false, []) ∧
    sparkGame.gameOver = false ∧
    sparkGame.particles.map (fun p => p.life) = [30, 0, 1] ∧
    (Update exactOps sparkGame tickInput).map
      (fun r => (r.1.gameOver, r.1.particles.map (fun p => p.life))) = some (false, [29, 0]) ∧
    (Update exactOps sparkGame (keyInput Key.Up 50000000)).map
      (fun r => (r.1.gameOver, r.1.particles.map (fun p => p.life))) = some (false, [29, 0]) ∧
    ¬ ∀ q ∈ updateParticles exactOps sparkGame.particles, 0 < q.life := by
  refine ⟨by decide, by decide, by decide, rfl, by decide, by decide, by decide, ?_⟩
  intro h
  have h0 : ∀ l ∈ (updateParticles exactOps sparkGame.particles).map (fun q => q.life),
      (0 : Int) < l := by
    intro l hl
    rw [List.mem_map] at hl
    obtain ⟨q, hq, rfl⟩ := hl
    exact h q hq
  have hlives : (updateParticles exactOps sparkGame.particles).map (fun q => q.life) = [29, 0] := by
    decide
  rw [hlives] at h0
  exact absurd (h0 0 (by simp)) (by decide)

/-- C12: in a state with gameOver = false, a call of `Update` on which the
elapsed time since lastMove is less than moveSpeed returns a state with
snakeBody, foodPos, score, grow, gameOver, lastMove (and moveSpeed) unchanged
and starts no goroutine; the direction is the one chosen by the key handling
and the particle list is the updated one. -/
theorem movement_gated (ops : Float64 F) (g : Game F) (inp : Input F)
    (hover : g.gameOver = false) (htime : inp.now - g.lastMove < g.moveSpeed) :
    ∃ g2, Update ops g inp = some (g2, []) ∧
      g2.snakeBody = g.snakeBody ∧ g2.foodPos = g.foodPos ∧ g2.score = g.score ∧
      g2.grow = g.grow ∧ g2.gameOver = g.gameOver ∧ g2.lastMove = g.lastMove ∧
      g2.moveSpeed = g.moveSpeed ∧
      g2.direction = applyKeys inp.pressed g.direction ∧
      g2.particles = updateParticles ops g.particles := by
  have hn : ¬ inp.now - g.lastMove > g.moveSpeed := not_lt.mpr (le_of_lt htime)
  exact ⟨_, Update_idle ops g inp hover hn, rfl, rfl, rfl, rfl, rfl, rfl, rfl, rfl, rfl⟩

/-- C12 at the start position 50 ms after the last move with Up pressed: only
the direction changes. -/
theorem movement_gated_witness :
    startGame.gameOver = false ∧
    (keyInput Key.Up 50000000).now - startGame.lastMove < startGame.moveSpeed ∧
    Update exactOps startGame (keyInput Key.Up 50000000) =
      some ({ startGame with direction := Direction.Up }, []) ∧
    ∃ g2, Update exactOps startGame (keyInput Key.Up 50000000) = some (g2, []) ∧
      g2.snakeBody = startGame.snakeBody ∧ g2.foodPos = startGame.foodPos ∧
      g2.score = startGame.score ∧ g2.grow = startGame.grow ∧
      g2.gameOver = startGame.gameOver ∧ g2.lastMove = startGame.lastMove ∧
      g2.moveSpeed = startGame.moveSpeed ∧
      g2.direction = applyKeys (keyInput Key.Up 50000000).pressed startGame.direction ∧
      g2.particles = updateParticles exactOps startGame.particles :=
  ⟨rfl, by decide, by decide,
    movement_gated exactOps startGame (keyInput Key.Up 50000000) rfl (by decide)⟩

/-- C13: for draws cellX in [0, screenWidth / gridSize) and cellY in
[0, screenHeight / gridSize), `placeFood` sets foodPos to
(cellX * gridSize, cellY * gridSize), whose X is a multiple of 20 with
0 <= X <= 620 and whose Y is a multiple of 20 with 0 <= Y <= 460, and it
leaves every other field as it was. -/
theorem placeFood_on_cell (g : Game F) (cellX cellY : Int)
    (hx : 0 ≤ cellX ∧ cellX < screenWidth / gridSize)
    (hy : 0 ≤ cellY ∧ cellY < screenHeight / gridSize) :
    (placeFood g cellX cellY).foodPos = { X := cellX * gridSize, Y := cellY * gridSize } ∧
    ((20 : Int) ∣ (placeFood g cellX cellY).foodPos.X ∧
      0 ≤ (placeFood g cellX cellY).foodPos.X ∧ (placeFood g cellX cellY).foodPos.X ≤ 620) ∧
    ((20 : Int) ∣ (placeFood g cellX cellY).foodPos.Y ∧
      0 ≤ (placeFood g cellX cellY).foodPos.Y ∧ (placeFood g cellX cellY).foodPos.Y ≤ 460) ∧
    (∃ i j : Int, 0 ≤ i ∧ i < 32 ∧ 0 ≤ j ∧ j < 24 ∧
      (placeFood g cellX cellY).foodPos = { X := i * 20, Y := j * 20 }) ∧
    (placeFood g cellX cellY).snakeBody = g.snakeBody ∧
    (placeFood g cellX cellY).direction = g.direction ∧
    (placeFood g cellX cellY).lastMove = g.lastMove ∧
    (placeFood g cellX cellY).moveSpeed = g.moveSpeed ∧
    (placeFood g cellX cellY).grow = g.grow ∧
    (placeFood g cellX cellY).gameOver = g.gameOver ∧
    (placeFood g cellX cellY).score = g.score ∧
    (placeFood g cellX cellY).particles = g.particles := by
  have h1 : screenWidth / gridSize = 32 := by decide
  have h2 : screenHeight / gridSize = 24 := by decide
  rw [h1] at hx
  rw [h2] at hy
  refine ⟨rfl, ?_, ?_, ?_, rfl, rfl, rfl, rfl, rfl, rfl, rfl, rfl⟩
  · simp only [placeFood, gridSize]
    exact ⟨Dvd.intro_left _ rfl, by omega, by omega⟩
  · simp only [placeFood, gridSize]
    exact ⟨Dvd.intro_left _ rfl, by omega, by omega⟩
  · exact ⟨cellX, cellY, hx.1, hx.2, hy.1, hy.2, rfl⟩

/-- C13 with the largest draws (31, 23): the food is on (620, 460). -/
theorem placeFood_on_cell_witness :
    (0 ≤ (31 : Int) ∧ (31 : Int) < screenWidth / gridSize) ∧
    (placeFood startGame 31 23).foodPos = { X := 620, Y := 460 } ∧
    ((20 : Int) ∣ (placeFood startGame 31 23).foodPos.X ∧
      0 ≤ (placeFood startGame 31 23).foodPos.X ∧ (placeFood startGame 31 23).foodPos.X ≤ 620) ∧
    (placeFood startGame 31 23).snakeBody = startGame.snakeBody :=
  ⟨by decide,
    (placeFood_on_cell startGame 31 23 (by decide) (by decide)).1,
    (placeFood_on_cell startGame 31 23 (by decide) (by decide)).2.1,
    (placeFood_on_cell startGame 31 23 (by decide) (by decide)).2.2.2.2.1⟩

/-! ## The column X = screenWidth -/

/-- The X coordinate of the new head of a step Right. -/
theorem nextHead_right_X (p : Position) :
    (nextHead p .Right).X =
      if p.X + 20 < 0 then 620 else if p.X + 20 > 640 then 0 else p.X + 20 := by
  simp [nextHead, moveHead, wrapHead, screenWidth, gridSize]

/-- The Y coordinate of the new head of a step Down. -/
theorem nextHead_down_Y (p : Position) :
    (nextHead p .Down).Y =
      if p.Y + 20 < 0 then 460 else if p.Y + 20 > 480 then 0 else p.Y + 20 := by
  simp [nextHead, moveHead, wrapHead, screenHeight, gridSize]

/-- From X = 0 the first 32 steps Right advance by one cell each. -/
theorem headAfter_right_X (y : Int) (k : Nat) (hk : k ≤ 32) :
    (headAfter .Right k { X := 0, Y := y }).X = 20 * (k : Int) := by
  induction k with
  | zero => simp [headAfter]
  | succ n ih =>
    have hn : n ≤ 32 := Nat.le_of_succ_le hk
    rw [headAfter, nextHead_right_X, ih hn]
    have h1 : ¬ (20 * (n : Int) + 20 < 0) := by omega
    have h2 : ¬ (20 * (n : Int) + 20 > 640) := by omega
    rw [if_neg h1, if_neg h2]
    push_cast
    ring

/-- The first body segment after a movement step that does not end the game is
the wrapped new head. -/
theorem Update_newHead (ops : Float64 F) (g : Game F) (inp : Input F)
    (head : Position) (rest : List Position)
    (hover : g.gameOver = false) (hbody : g.snakeBody = head :: rest)
    (htime : inp.now - g.lastMove > g.moveSpeed) :
    ∃ g2 spawned, Update ops g inp = some (g2, spawned) ∧
      (g2.gameOver = false →
        g2.snakeBody.head? = some (nextHead head (applyKeys inp.pressed g.direction))) := by
  by_cases hmem : nextHead head (applyKeys inp.pressed g.direction) ∈ g.snakeBody
  · exact ⟨_, _, Update_collision ops g inp head rest hover hbody htime hmem,
      fun h => by simp at h⟩
  · refine ⟨_, _, Update_move ops g inp head rest hover hbody htime hmem, fun _ => ?_⟩
    unfold movedGame
    split <;> rfl

/-- C14: a movement step of `Update` heading Right from a head with
X = screenWidth - gridSize returns and, unless it ends the game, the new first
segment has X = screenWidth: it is not wrapped.  The step Right from
X = screenWidth wraps to X = 0; heading Down, Y = screenHeight - gridSize goes
to Y = screenHeight and Y = screenHeight wraps to 0.  Hence from X = 0 the head
is at X = 20 k (not 0) after k = 1..32 steps Right and back at X = 0 after
exactly 33. -/
theorem off_board_column (ops : Float64 F) (g : Game F) (inp : Input F)
    (head : Position) (rest : List Position) :
    (g.gameOver = false → g.snakeBody = head :: rest →
      inp.now - g.lastMove > g.moveSpeed →
      applyKeys inp.pressed g.direction = .Right → head.X = screenWidth - gridSize →
      ∃ g2 spawned, Update ops g inp = some (g2, spawned) ∧
        (g2.gameOver = false →
          ∃ h2, g2.snakeBody.head? = some h2 ∧ h2.X = screenWidth)) ∧
    (∀ y : Int, (nextHead { X := screenWidth - gridSize, Y := y } .Right).X = screenWidth) ∧
    (∀ y : Int, 0 ≤ y → y ≤ screenHeight →
      nextHead { X := screenWidth - gridSize, Y := y } .Right = { X := screenWidth, Y := y }) ∧
    (∀ y : Int, (nextHead { X := screenWidth, Y := y } .Right).X = 0) ∧
    (∀ x : Int, (nextHead { X := x, Y := screenHeight - gridSize } .Down).Y = screenHeight) ∧
    (∀ x : Int, (nextHead { X := x, Y := screenHeight } .Down).Y = 0) ∧
    (∀ (y : Int) (k : Nat), 1 ≤ k → k ≤ 32 →
      (headAfter .Right k { X := 0, Y := y }).X = 20 * (k : Int) ∧
      (headAfter .Right k { X := 0, Y := y }).X ≠ 0) ∧
    (∀ y : Int, (headAfter .Right 33 { X := 0, Y := y }).X = 0) := by
  refine ⟨?_, ?_, ?_, ?_, ?_, ?_, ?_, ?_⟩
  · intro hover hbody htime hdir hx
    obtain ⟨g2, spawned, hcall, hhead⟩ := Update_newHead ops g inp head rest hover hbody htime
    refine ⟨g2, spawned, hcall, fun h => ⟨_, hhead h, ?_⟩⟩
    rw [hdir, nextHead_right_X, hx]
    simp [screenWidth, gridSize]
  · intro y
    rw [nextHead_right_X]
    simp [screenWidth, gridSize]
  · intro y hy0 hy1
    have h1 : ¬ y < 0 := not_lt.mpr hy0
    have h2 : ¬ y > screenHeight := not_lt.mpr hy1
    simp only [nextHead, moveHead, wrapHead, h1, h2, if_false]
    simp [screenWidth, gridSize]
  · intro y
    rw [nextHead_right_X]
    simp [screenWidth]
  · intro x
    rw [nextHead_down_Y]
    simp [screenHeight, gridSize]
  · intro x
    rw [nextHead_down_Y]
    simp [screenHeight]
  · intro y k hk1 hk2
    rw [headAfter_right_X y k hk2]
    exact ⟨rfl, by omega⟩
  · intro y
    rw [headAfter, nextHead_right_X, headAfter_right_X y 32 (le_refl _)]
    simp

set_option maxRecDepth 100000 in
/-- C14 on a snake whose head is on (0,240) heading Right: 32 calls of `Update`
that each move bring the head to (640,240), the 33rd brings it back to (0,240). -/
theorem off_board_column_witness :
    (runUpdates exactOps leftEdgeGame (ticks 32)).map (fun g => (g.snakeBody.head?, g.gameOver)) =
      some (some { X := 640, Y := 240 }, false) ∧
    (runUpdates exactOps leftEdgeGame (ticks 33)).map (fun g => (g.snakeBody.head?, g.gameOver)) =
      some (some { X := 0, Y := 240 }, false) ∧
    (headAfter Direction.Right 32 { X := 0, Y := 240 }).X = 20 * ((32 : Nat) : Int) ∧
    (headAfter Direction.Right 33 { X := 0, Y := 240 }).X = 0 ∧
    nextHead { X := screenWidth - gridSize, Y := 240 } Direction.Right =
      { X := screenWidth, Y := 240 } ∧
    (Update exactOps nearEdgeGame tickInput).map (fun r => (r.1.snakeBody, r.1.gameOver)) =
      some ([{ X := 640, Y := 240 }, { X := 620, Y := 240 }, { X := 600, Y := 240 }], false) ∧
    (∃ g2 spawned, Update exactOps nearEdgeGame tickInput = some (g2, spawned) ∧
      (g2.gameOver = false → ∃ h2, g2.snakeBody.head? = some h2 ∧ h2.X = screenWidth)) :=
  ⟨by decide, by decide,
    ((off_board_column exactOps leftEdgeGame tickInput { X := 0, Y := 240 } []).2.2.2.2.2.2.1
      240 32 (by decide) (by decide)).1,
    (off_board_column exactOps leftEdgeGame tickInput { X := 0, Y := 240 } []).2.2.2.2.2.2.2 240,
    (off_board_column exactOps leftEdgeGame tickInput { X := 0, Y := 240 } []).2.2.1 240
      (by decide) (by decide),
    by decide,
    (off_board_column exactOps nearEdgeGame tickInput { X := 620, Y := 240 }
      [{ X := 600, Y := 240 }, { X := 580, Y := 240 }]).1 rfl rfl (by decide) (by decide)
      (by decide)⟩

/-! ## Invariant of the reachable states -/

/-- A step from a grid position within the bounds ends on one. -/
theorem nextHead_onGrid (p : Position) (d : Direction) (hp : onGrid p) :
    onGrid (nextHead p d) := by
  obtain ⟨h1, h2, h3, h4, h5, h6⟩ := hp
  simp only [gridSize, screenWidth, screenHeight] at h1 h2 h3 h4 h5 h6
  cases d <;>
    simp only [onGrid, nextHead, moveHead, wrapHead, gridSize, screenWidth, screenHeight] <;>
    split_ifs <;> omega

/-- The cell chosen by draws of `rand.Intn` is on the grid. -/
theorem onGrid_cell (cellX cellY : Int) (hdraws : validDraws cellX cellY) :
    onGrid { X := cellX * gridSize, Y := cellY * gridSize } := by
  have h1 : screenWidth / gridSize = 32 := by decide
  have h2 : screenHeight / gridSize = 24 := by decide
  obtain ⟨a, b, c, d⟩ := hdraws
  rw [h1] at b
  rw [h2] at d
  simp only [onGrid, gridSize, screenWidth, screenHeight]
  exact ⟨Dvd.intro_left _ rfl, Dvd.intro_left _ rfl, by omega, by omega, by omega, by omega⟩

/-- The game built in `main` satisfies the invariant. -/
theorem invariant_mainGame (now cellX cellY : Int) (hdraws : validDraws cellX cellY) :
    Invariant (mainGame now cellX cellY : Game F) := by
  refine ⟨?_, onGrid_cell cellX cellY hdraws, rfl, by simp [mainGame, placeFood], ?_⟩
  · intro seg hseg
    simp only [mainGame, placeFood, List.mem_cons, List.mem_singleton, List.not_mem_nil,
      or_false] at hseg
    rcases hseg with h | h | h <;> subst h <;>
      simp only [onGrid, gridSize, screenWidth, screenHeight] <;>
      refine ⟨by decide, by decide, by decide, by decide, by decide, by decide⟩
  · simp [mainGame, placeFood]

/-- The game built by `restart` satisfies the invariant when the grow flag was clear. -/
theorem invariant_restart (g : Game F) (cellX cellY : Int) (hgrow : g.grow = false)
    (hdraws : validDraws cellX cellY) : Invariant (restart g cellX cellY) := by
  refine ⟨?_, onGrid_cell cellX cellY hdraws, hgrow, by simp [restart, placeFood], ?_⟩
  · intro seg hseg
    simp only [restart, placeFood, List.mem_cons, List.mem_singleton, List.not_mem_nil,
      or_false] at hseg
    rcases hseg with h | h | h <;> subst h <;>
      simp only [onGrid, gridSize, screenWidth, screenHeight] <;>
      refine ⟨by decide, by decide, by decide, by decide, by decide, by decide⟩
  · simp [restart, placeFood]

/-- The state after a movement step that hits no segment keeps the invariant. -/
theorem invariant_movedGame (ops : Float64 F) (g : Game F) (inp : Input F)
    (head : Position) (rest : List Position) (hbody : g.snakeBody = head :: rest)
    (hinv : Invariant g) (hdraws : validDraws inp.cellX inp.cellY) :
    Invariant (movedGame ops g inp (nextHead head (applyKeys inp.pressed g.direction))) := by
  obtain ⟨hsegs, hfood, hgrow, hlen, hscore⟩ := hinv
  have hhead : onGrid head := hsegs head (by rw [hbody]; exact List.mem_cons_self _ _)
  have hnew := nextHead_onGrid head (applyKeys inp.pressed g.direction) hhead
  unfold movedGame
  split
  · refine ⟨?_, onGrid_cell _ _ hdraws, rfl, ?_, ?_⟩
    · intro seg hseg
      rcases List.mem_cons.1 hseg with h | h
      · rw [h]; exact hnew
      · exact hsegs seg h
    · simp only [List.length_cons]
      omega
    · simp only [List.length_cons]
      rw [hscore]
      push_cast
      ring
  · simp only [hgrow, Bool.false_eq_true, if_false]
    refine ⟨?_, hfood, rfl, ?_, ?_⟩
    · intro seg hseg
      rcases List.mem_cons.1 hseg with h | h
      · rw [h]; exact hnew
      · exact hsegs seg (List.mem_of_mem_dropLast h)
    · simp only [List.length_cons, List.length_dropLast]
      omega
    · simp only [List.length_cons, List.length_dropLast]
      rw [hscore]
      have h1 : ((g.snakeBody.length - 1 + 1 : Nat) : Int) = (g.snakeBody.length : Int) := by
        have : g.snakeBody.length - 1 + 1 = g.snakeBody.length := by omega
        rw [this]
      rw [h1]

/-- A returning call of `Update` with draws of `rand.Intn` keeps the invariant. -/
theorem invariant_Update (ops : Float64 F) (g : Game F) (inp : Input F)
    (g2 : Game F) (spawned : List (Spawned F)) (hinv : Invariant g)
    (hdraws : validDraws inp.cellX inp.cellY)
    (hcall : Update ops g inp = some (g2, spawned)) : Invariant g2 := by
  cases hover : g.gameOver with
  | true =>
    cases hspace : inp.pressed .Space with
    | true =>
      rw [Update_restart ops g inp hover hspace] at hcall
      simp only [Option.some.injEq, Prod.mk.injEq] at hcall
      rw [← hcall.1]
      exact invariant_restart g _ _ hinv.2.2.1 hdraws
    | false =>
      rw [Update_frozen ops g inp hover hspace] at hcall
      simp only [Option.some.injEq, Prod.mk.injEq] at hcall
      rw [← hcall.1]
      exact hinv
  | false =>
    by_cases htime : inp.now - g.lastMove > g.moveSpeed
    · cases hbody : g.snakeBody with
      | nil => simp [Update, hover, htime, hbody] at hcall
      | cons head rest =>
        by_cases hmem : nextHead head (applyKeys inp.pressed g.direction) ∈ g.snakeBody
        · rw [Update_collision ops g inp head rest hover hbody htime hmem] at hcall
          simp only [Option.some.injEq, Prod.mk.injEq] at hcall
          rw [← hcall.1]
          exact hinv
        · rw [Update_move ops g inp head rest hover hbody htime hmem] at hcall
          simp only [Option.some.injEq, Prod.mk.injEq] at hcall
          rw [← hcall.1]
          exact invariant_movedGame ops g inp head rest hbody hinv hdraws
    · rw [Update_idle ops g inp hover htime] at hcall
      simp only [Option.some.injEq, Prod.mk.injEq] at hcall
      rw [← hcall.1]
      exact hinv

/-- A run of iterations of `createExplosion` keeps the invariant. -/
theorem invariant_createExplosion (g : Game F) (x y : F) (draw : Nat → F × F × F)
    (iters : List Nat) (hinv : Invariant g) :
    Invariant (createExplosion.loop g x y draw iters) := by
  rw [createExplosion_loop_eq]
  exact hinv

/-- Every reachable state satisfies the invariant. -/
theorem reachable_invariant (ops : Float64 F) (g : Game F) (hg : Reachable ops g) :
    Invariant g := by
  induction hg with
  | main now cellX cellY hdraws => exact invariant_mainGame now cellX cellY hdraws
  | update g inp g2 spawned _ hdraws hcall ih =>
    exact invariant_Update ops g inp g2 spawned ih hdraws hcall
  | explosion g x y draw iters _ ih => exact invariant_createExplosion g x y draw iters ih

/-- The state after the first food is reachable. -/
theorem reachable_afterFirstFood : Reachable exactOps afterFirstFood :=
  Reachable.update firstFoodGame tickInput afterFirstFood
    (movedSpawned exactOps firstFoodGame { X := 320, Y := 240 })
    (Reachable.main 0 16 12 (by decide)) (by decide)
    (Update_move exactOps firstFoodGame tickInput { X := 300, Y := 240 }
      [{ X := 280, Y := 240 }, { X := 260, Y := 240 }] rfl rfl (by decide) (by decide))

/-- C15: in every state reachable from the game built in `main` by `Update`
calls with any keys, clock readings and draws of `rand.Intn` (and by
`createExplosion` goroutines), every snake segment and the food position have
both coordinates multiples of gridSize with 0 <= X <= screenWidth and
0 <= Y <= screenHeight. -/
theorem grid_invariant (ops : Float64 F) (g : Game F) (hg : Reachable ops g) :
    (∀ seg ∈ g.snakeBody,
      gridSize ∣ seg.X ∧ gridSize ∣ seg.Y ∧ 0 ≤ seg.X ∧ seg.X ≤ screenWidth ∧
        0 ≤ seg.Y ∧ seg.Y ≤ screenHeight) ∧
    (gridSize ∣ g.foodPos.X ∧ gridSize ∣ g.foodPos.Y ∧ 0 ≤ g.foodPos.X ∧
      g.foodPos.X ≤ screenWidth ∧ 0 ≤ g.foodPos.Y ∧ g.foodPos.Y ≤ screenHeight) :=
  ⟨(reachable_invariant ops g hg).1, (reachable_invariant ops g hg).2.1⟩

/-- C15 on the state after the first food: segments (320,240) to (260,240) and
food (60,80) are grid cells within the bounds. -/
theorem grid_invariant_witness :
    afterFirstFood.snakeBody =
      [{ X := 320, Y := 240 }, { X := 300, Y := 240 }, { X := 280, Y := 240 },
        { X := 260, Y := 240 }] ∧
    afterFirstFood.foodPos = { X := 60, Y := 80 } ∧
    ((∀ seg ∈ afterFirstFood.snakeBody,
      gridSize ∣ seg.X ∧ gridSize ∣ seg.Y ∧ 0 ≤ seg.X ∧ seg.X ≤ screenWidth ∧
        0 ≤ seg.Y ∧ seg.Y ≤ screenHeight) ∧
    (gridSize ∣ afterFirstFood.foodPos.X ∧ gridSize ∣ afterFirstFood.foodPos.Y ∧
      0 ≤ afterFirstFood.foodPos.X ∧ afterFirstFood.foodPos.X ≤ screenWidth ∧
      0 ≤ afterFirstFood.foodPos.Y ∧ afterFirstFood.foodPos.Y ≤ screenHeight)) :=
  ⟨by decide, by decide, grid_invariant exactOps afterFirstFood reachable_afterFirstFood⟩

/-- C16: in every state reachable from the game built in `main` (restarts
included) the body has at least one segment, so every call of `Update`
returns: neither the head read `g.snakeBody[0]` nor the tail drop fails. -/
theorem snake_never_empty (ops : Float64 F) (g : Game F) (hg : Reachable ops g) :
    1 ≤ g.snakeBody.length ∧ (∃ head rest, g.snakeBody = head :: rest) ∧
    ∀ inp : Input F, ∃ g2 spawned, Update ops g inp = some (g2, spawned) := by
  have hlen : 3 ≤ g.snakeBody.length := (reachable_invariant ops g hg).2.2.2.1
  have hne : g.snakeBody ≠ [] := by
    intro h
    rw [h] at hlen
    simp at hlen
  refine ⟨by omega, ?_, ?_⟩
  · cases hb : g.snakeBody with
    | nil => exact absurd hb hne
    | cons head rest => exact ⟨head, rest, rfl⟩
  · intro inp
    obtain ⟨r, hr⟩ := Update_returns ops g inp hne
    exact ⟨r.1, r.2, hr⟩

/-- C16 on the state after the first food: the body is non-empty and a further
call returns. -/
theorem snake_never_empty_witness :
    1 ≤ afterFirstFood.snakeBody.length ∧
    (∃ head rest, afterFirstFood.snakeBody = head :: rest) ∧
    ∃ g2 spawned, Update exactOps afterFirstFood (tickAt 1) = some (g2, spawned) :=
  ⟨(snake_never_empty exactOps afterFirstFood reachable_afterFirstFood).1,
    (snake_never_empty exactOps afterFirstFood reachable_afterFirstFood).2.1,
    (snake_never_empty exactOps afterFirstFood reachable_afterFirstFood).2.2 (tickAt 1)⟩

/-- C17: `placeFood` does not exclude occupied cells: the game `main` builds
with draws (5, 5) is reachable, (15, 12) are draws `rand.Intn` can return, and
`placeFood` with them puts the food on (300,240), the cell of the head; the
game `main` builds with those draws is itself such a reachable state. -/
theorem food_under_snake (ops : Float64 F) :
    Reachable ops (mainGame 0 5 5 : Game F) ∧ validDraws 15 12 ∧
    (placeFood (mainGame 0 5 5 : Game F) 15 12).foodPos = { X := 300, Y := 240 } ∧
    (placeFood (mainGame 0 5 5 : Game F) 15 12).snakeBody.head? = some { X := 300, Y := 240 } ∧
    (placeFood (mainGame 0 5 5 : Game F) 15 12).foodPos ∈
      (placeFood (mainGame 0 5 5 : Game F) 15 12).snakeBody ∧
    Reachable ops (mainGame 0 15 12 : Game F) ∧
    (mainGame 0 15 12 : Game F).foodPos ∈ (mainGame 0 15 12 : Game F).snakeBody := by
  refine ⟨Reachable.main 0 5 5 (by decide), by decide, ?_, rfl, ?_,
    Reachable.main 0 15 12 (by decide), ?_⟩
  · simp [placeFood, gridSize]
  · simp [placeFood, mainGame, gridSize]
  · simp [placeFood, mainGame, gridSize]

/-! ## Fade of the alpha channel -/

/-- With exact arithmetic the alpha computed on line 216 is `exactAlpha`. -/
theorem exactOps_fade (l : Int) (h0 : 0 ≤ l) (h1 : l ≤ 30) :
    exactOps.toUInt8
      (exactOps.mul (exactOps.div (exactOps.ofInt l) (exactOps.ofInt particleLife))
        (exactOps.ofInt 255)) = (exactAlpha l).toNat := by
  have hq : ((l : Rat) / ((30 : Int) : Rat) * ((255 : Int) : Rat)) =
      (((l * 255 : Int) : Rat) / ((30 : Nat) : Rat)) := by
    push_cast
    ring
  have hfl : Rat.floor ((l : Rat) / ((30 : Int) : Rat) * ((255 : Int) : Rat)) = l * 255 / 30 := by
    rw [hq]
    exact Rat.floor_intCast_div_natCast (l * 255) 30
  simp only [exactOps, particleLife, exactAlpha]
  rw [hfl]
  omega

/-- The spec's `exactAlpha` is the floor of the exact quotient. -/
theorem exactAlpha_floor (l : Int) :
    exactAlpha l = Rat.floor ((l : Rat) * 255 / 30) := by
  have hq : ((l : Rat) * 255 / 30) = (((l * 255 : Int) : Rat) / ((30 : Nat) : Rat)) := by
    push_cast
    ring
  rw [hq]
  exact (Rat.floor_intCast_div_natCast (l * 255) 30).symm

/-- C18: in exact arithmetic, for a particle with 1 <= life <= particleLife
the particle update sets alpha to floor((life - 1) * 255 / 30); that value is
in 0..255 and at most floor(life * 255 / 30), the alpha of the previous life
value (so at most the alpha the particle carried, when it carried that one); a
new particle has life particleLife and alpha 255 = floor(30 * 255 / 30), and
the alpha is 0 when the life is 0. -/
theorem alpha_fade (p : Particle Rat) (x y dx dy size : Rat)
    (h1 : 1 ≤ p.life) (h2 : p.life ≤ particleLife) :
    ((stepParticle exactOps p).color.A : Int) = exactAlpha (p.life - 1) ∧
    exactAlpha (p.life - 1) = Rat.floor (((p.life - 1 : Int) : Rat) * 255 / 30) ∧
    0 ≤ exactAlpha (p.life - 1) ∧ exactAlpha (p.life - 1) ≤ 255 ∧
    exactAlpha (p.life - 1) ≤ exactAlpha p.life ∧
    ((p.color.A : Int) = exactAlpha p.life →
      (stepParticle exactOps p).color.A ≤ p.color.A) ∧
    (newParticle x y dx dy size).life = particleLife ∧
    (newParticle x y dx dy size).color.A = 255 ∧ exactAlpha particleLife = 255 ∧
    exactAlpha 0 = 0 ∧
    ((stepParticle exactOps p).life = 0 → (stepParticle exactOps p).color.A = 0) := by
  have h3 : p.life ≤ 30 := h2
  have hA : (stepParticle exactOps p).color.A = (exactAlpha (p.life - 1)).toNat :=
    exactOps_fade (p.life - 1) (by omega) (by omega)
  have hlo : 0 ≤ exactAlpha (p.life - 1) := by
    simp only [exactAlpha, particleLife]
    omega
  have hhi : exactAlpha (p.life - 1) ≤ 255 := by
    simp only [exactAlpha, particleLife]
    omega
  have hmono : exactAlpha (p.life - 1) ≤ exactAlpha p.life := by
    simp only [exactAlpha, particleLife]
    omega
  have hAint : ((stepParticle exactOps p).color.A : Int) = exactAlpha (p.life - 1) := by
    rw [hA]
    exact Int.toNat_of_nonneg hlo
  refine ⟨hAint, exactAlpha_floor _, hlo, hhi, hmono, ?_, rfl, rfl, by decide, by decide, ?_⟩
  · intro hc
    have : ((stepParticle exactOps p).color.A : Int) ≤ (p.color.A : Int) := by
      rw [hAint, hc]
      exact hmono
    exact_mod_cast this
  · intro hl
    have hl1 : p.life - 1 = 0 := hl
    have hz : ((stepParticle exactOps p).color.A : Int) = 0 := by
      rw [hAint, hl1]
      decide
    exact_mod_cast hz

/-- C18 on a new particle (life 30, alpha 255): the first update sets alpha
246 = floor(29 * 255 / 30). -/
theorem alpha_fade_witness :
    (newParticle (1 : Rat) 2 3 4 5).life = 30 ∧ (newParticle (1 : Rat) 2 3 4 5).color.A = 255 ∧
    ((stepParticle exactOps (newParticle 1 2 3 4 5)).color.A : Int) = exactAlpha (30 - 1) ∧
    exactAlpha (30 - 1) = 246 ∧
    (stepParticle exactOps (newParticle 1 2 3 4 5)).color.A ≤
      (newParticle (1 : Rat) 2 3 4 5).color.A :=
  ⟨rfl, rfl,
    (alpha_fade (newParticle 1 2 3 4 5) 1 2 3 4 5 (by decide) (by decide)).1,
    by decide,
    (alpha_fade (newParticle 1 2 3 4 5) 1 2 3 4 5 (by decide) (by decide)).2.2.2.2.2.1
      (by decide)⟩

/-! ## Score -/

/-- C19: in every state reachable from the game built in `main` (moves, food
eaten, game over, restarts) score = 10 * (len(snakeBody) - 3); so the score is
a non-negative multiple of 10 and the body has at least 3 segments. -/
theorem score_tracks_length (ops : Float64 F) (g : Game F) (hg : Reachable ops g) :
    g.score = 10 * ((g.snakeBody.length : Int) - 3) ∧ 0 ≤ g.score ∧ (10 : Int) ∣ g.score ∧
    3 ≤ g.snakeBody.length := by
  obtain ⟨_, _, _, hlen, hscore⟩ := reachable_invariant ops g hg
  refine ⟨hscore, ?_, ?_, hlen⟩
  · rw [hscore]
    omega
  · rw [hscore]
    exact Dvd.intro _ rfl

/-- C19 on the state after the first food: four segments, score 10. -/
theorem score_tracks_length_witness :
    afterFirstFood.snakeBody.length = 4 ∧ afterFirstFood.score = 10 ∧
    (afterFirstFood.score = 10 * ((afterFirstFood.snakeBody.length : Int) - 3) ∧
      0 ≤ afterFirstFood.score ∧ (10 : Int) ∣ afterFirstFood.score ∧
      3 ≤ afterFirstFood.snakeBody.length) :=
  ⟨by decide, by decide, score_tracks_length exactOps afterFirstFood reachable_afterFirstFood⟩

/-- A call of `Update` that raises the score returns a game that is not over. -/
theorem Update_score_increase (ops : Float64 F) (g : Game F) (inp : Input F)
    (g2 : Game F) (spawned : List (Spawned F))
    (hcall : Update ops g inp = some (g2, spawned)) (hscore : g.score < g2.score) :
    g2.gameOver = false := by
  cases hover : g.gameOver with
  | true =>
    cases hspace : inp.pressed .Space with
    | true =>
      rw [Update_restart ops g inp hover hspace] at hcall
      simp only [Option.some.injEq, Prod.mk.injEq] at hcall
      rw [← hcall.1]
      rfl
    | false =>
      rw [Update_frozen ops g inp hover hspace] at hcall
      simp only [Option.some.injEq, Prod.mk.injEq] at hcall
      rw [← hcall.1] at hscore
      exact absurd hscore (lt_irrefl _)
  | false =>
    by_cases htime : inp.now - g.lastMove > g.moveSpeed
    · cases hbody : g.snakeBody with
      | nil => simp [Update, hover, htime, hbody] at hcall
      | cons head rest =>
        by_cases hmem : nextHead head (applyKeys inp.pressed g.direction) ∈ g.snakeBody
        · rw [Update_collision ops g inp head rest hover hbody htime hmem] at hcall
          simp only [Option.some.injEq, Prod.mk.injEq] at hcall
          rw [← hcall.1] at hscore
          exact absurd hscore (lt_irrefl _)
        · rw [Update_move ops g inp head rest hover hbody htime hmem] at hcall
          simp only [Option.some.injEq, Prod.mk.injEq] at hcall
          rw [← hcall.1]
          unfold movedGame
          split <;> rfl
    · rw [Update_idle ops g inp hover htime] at hcall
      simp only [Option.some.injEq, Prod.mk.injEq] at hcall
      rw [← hcall.1]
      exact hover

/-- C20: on a movement step of `Update` whose wrapped new head equals foodPos
and also a current body segment, the call returns with gameOver = true and
score, foodPos, body and grow flag unchanged, starting only the game-over
sound (no explosion, no growth); and on any call of `Update` whatever, a score
higher after the call than before implies gameOver = false after it. -/
theorem collision_before_food (ops : Float64 F) (g : Game F) (inp : Input F)
    (head : Position) (rest : List Position)
    (hover : g.gameOver = false) (hbody : g.snakeBody = head :: rest)
    (htime : inp.now - g.lastMove > g.moveSpeed)
    (hfood : nextHead head (applyKeys inp.pressed g.direction) = g.foodPos)
    (hcol : ∃ seg ∈ g.snakeBody, nextHead head (applyKeys inp.pressed g.direction) = seg) :
    (∃ g2, Update ops g inp = some (g2, [.playGameOverSound]) ∧
      g2.gameOver = true ∧ g2.score = g.score ∧ g2.foodPos = g.foodPos ∧
      g2.snakeBody = g.snakeBody ∧ g2.grow = g.grow ∧
      g2.foodPos = nextHead head (applyKeys inp.pressed g.direction)) ∧
    (∀ (g1 : Game F) (inp1 : Input F) (g3 : Game F) (spawned3 : List (Spawned F)),
      Update ops g1 inp1 = some (g3, spawned3) → g1.score < g3.score → g3.gameOver = false) := by
  have hmem : nextHead head (applyKeys inp.pressed g.direction) ∈ g.snakeBody := by
    obtain ⟨seg, hseg, heq⟩ := hcol
    rw [heq]; exact hseg
  exact ⟨⟨_, Update_collision ops g inp head rest hover hbody htime hmem,
      rfl, rfl, rfl, rfl, rfl, hfood.symm⟩,
    fun g1 inp1 g3 spawned3 h hs => Update_score_increase ops g1 inp1 g3 spawned3 h hs⟩

/-- C20 on the coiled snake with the food under its tail (20,0): turning Right
onto it ends the game with score 0, food and body as before. -/
theorem collision_before_food_witness :
    underFoodGame.gameOver = false ∧
    nextHead { X := 0, Y := 0 }
      (applyKeys (keyInput Key.Right 200000000).pressed underFoodGame.direction) =
        underFoodGame.foodPos ∧
    ∃ g2, Update exactOps underFoodGame (keyInput Key.Right 200000000) =
        some (g2, [Spawned.playGameOverSound]) ∧
      g2.gameOver = true ∧ g2.score = underFoodGame.score ∧
      g2.foodPos = underFoodGame.foodPos ∧ g2.snakeBody = underFoodGame.snakeBody ∧
      g2.grow = underFoodGame.grow ∧
      g2.foodPos = nextHead { X := 0, Y := 0 }
        (applyKeys (keyInput Key.Right 200000000).pressed underFoodGame.direction) :=
  ⟨rfl, by decide,
    (collision_before_food exactOps underFoodGame (keyInput Key.Right 200000000)
      { X := 0, Y := 0 } [{ X := 0, Y := 20 }, { X := 20, Y := 20 }, { X := 20, Y := 0 }]
      rfl rfl (by decide) (by decide) ⟨{ X := 20, Y := 0 }, by decide, by decide⟩).1⟩

/-! ## Plain move -/

/-- C1: in every state the program reaches with gameOver = false and a
non-empty body, a movement step of `Update` (elapsed time since lastMove
greater than moveSpeed) whose wrapped new head is no body segment and is not
the food returns a state whose body is the new head followed by the old body
without its last segment; body length, score and foodPos are unchanged. -/
theorem plain_move (ops : Float64 F) (g : Game F) (inp : Input F)
    (head : Position) (rest : List Position)
    (hreach : Reachable ops g)
    (hover : g.gameOver = false) (hbody : g.snakeBody = head :: rest)
    (htime : inp.now - g.lastMove > g.moveSpeed)
    (hcol : ∀ seg ∈ g.snakeBody, nextHead head (applyKeys inp.pressed g.direction) ≠ seg)
    (hfood : nextHead head (applyKeys inp.pressed g.direction) ≠ g.foodPos) :
    ∃ g2 spawned, Update ops g inp = some (g2, spawned) ∧
      g2.snakeBody =
        nextHead head (applyKeys inp.pressed g.direction) :: g.snakeBody.dropLast ∧
      g2.snakeBody.length = g.snakeBody.length ∧
      g2.score = g.score ∧ g2.foodPos = g.foodPos :=
  Update_plain_move ops g inp head rest hover (reachable_invariant ops g hreach).2.2.1
    hbody htime hcol hfood

/-- C1 at the start position: body (300,240),(280,240),(260,240) heading Right,
no key pressed, food elsewhere, gives (320,240),(300,240),(280,240). -/
theorem plain_move_witness :
    Reachable exactOps startGame ∧ startGame.gameOver = false ∧
    startGame.snakeBody = { X := 300, Y := 240 } :: [{ X := 280, Y := 240 }, { X := 260, Y := 240 }] ∧
    ∃ g2 spawned, Update exactOps startGame tickInput = some (g2, spawned) ∧
      g2.snakeBody = [{ X := 320, Y := 240 }, { X := 300, Y := 240 }, { X := 280, Y := 240 }] ∧
      g2.snakeBody.length = startGame.snakeBody.length ∧
      g2.score = startGame.score ∧ g2.foodPos = startGame.foodPos :=
  ⟨Reachable.main 0 5 5 (by decide), rfl, rfl,
    plain_move exactOps startGame tickInput { X := 300, Y := 240 }
      [{ X := 280, Y := 240 }, { X := 260, Y := 240 }] (Reachable.main 0 5 5 (by decide))
      rfl rfl (by decide) (by decide) (by decide)⟩

end Snake
